import Mathlib

/-!
Shallow embedding of the accounting-policy enforcement engine
(src/slurmctld/acct_policy.c) and proofs about the claims made by its
natural-language specification.

Conventions of the embedding:
* unsigned machine counters and limits are modelled as mathematical
  integers (Int); the C idiom `x -= d; if ((int32_t)x < 0) x = 0;` is
  modelled by an explicit clamp, which agrees with the C behaviour for
  all values below 2^31;
* the sentinels INFINITE (0xffffffff) and NO_VAL (0xfffffffe) are kept
  as literal values, exactly as the C code compares them (the 64-bit
  fields are compared against (uint64_t)INFINITE, i.e. the same value);
* pointer identity of QOS records is modelled by an id field;
* debug2 underflow logging is modelled by a counter of emitted logs;
* the TRES-string parses performed through
  slurmdb_find_tres_count_in_string(_, TRES_CPU) are modelled as
  pre-parsed integer fields of the association record.
-/

namespace AcctPolicy

/-- Sentinel INFINITE (0xffffffff), meaning no limit.  The source compares
both 32-bit fields and 64-bit fields against (uint64_t)INFINITE, which is
this same value. -/
def INFINITE : Int := 4294967295

/-- Sentinel NO_VAL (0xfffffffe), meaning unspecified on inputs. -/
def NO_VAL : Int := 4294967294

/-- Value of the ADMIN_SET_LIMIT slot state of a limit-set entry.
Modelled from the spec: the three-state limit-source field is
UNSET (0) | USER_SET (1) | ADMIN_SET (this value). -/
def ADMIN_SET_LIMIT : Int := 2

/-- Index of the cpu entry of a TRES vector. -/
def TRES_ARRAY_CPU : Nat := 0

/-- Index of the mem entry of a TRES vector. -/
def TRES_ARRAY_MEM : Nat := 1

/-- Number of entries of the fixed TRES catalogue (cpu, mem, node, energy). -/
def g_tres_count : Nat := 4

/-- Job wait/fail state reasons used by the policy engine. -/
inductive Reason where
  | WAIT_NO_REASON
  | FAIL_ACCOUNT
  | FAIL_TIMEOUT
  | WAIT_QOS_GRP_CPU
  | WAIT_QOS_GRP_CPU_MIN
  | WAIT_QOS_GRP_CPU_RUN_MIN
  | WAIT_QOS_GRP_JOB
  | WAIT_QOS_GRP_MEMORY
  | WAIT_QOS_GRP_NODES
  | WAIT_QOS_GRP_SUB_JOB
  | WAIT_QOS_GRP_WALL
  | WAIT_QOS_MAX_CPU_MINS_PER_JOB
  | WAIT_QOS_MAX_CPUS_PER_JOB
  | WAIT_QOS_MAX_CPU_PER_USER
  | WAIT_QOS_MAX_JOB_PER_USER
  | WAIT_QOS_MAX_NODE_PER_JOB
  | WAIT_QOS_MAX_NODE_PER_USER
  | WAIT_QOS_MAX_SUB_JOB
  | WAIT_QOS_MAX_WALL_PER_JOB
  | WAIT_QOS_MIN_CPUS
  | WAIT_ASSOC_GRP_CPU
  | WAIT_ASSOC_GRP_CPU_MIN
  | WAIT_ASSOC_GRP_CPU_RUN_MIN
  | WAIT_ASSOC_GRP_JOB
  | WAIT_ASSOC_GRP_MEMORY
  | WAIT_ASSOC_GRP_NODES
  | WAIT_ASSOC_GRP_SUB_JOB
  | WAIT_ASSOC_GRP_WALL
  | WAIT_ASSOC_MAX_JOBS
  | WAIT_ASSOC_MAX_CPU_MINS_PER_JOB
  | WAIT_ASSOC_MAX_CPUS_PER_JOB
  | WAIT_ASSOC_MAX_NODE_PER_JOB
  | WAIT_ASSOC_MAX_SUB_JOB
  | WAIT_ASSOC_MAX_WALL_PER_JOB
  | WAIT_ASSOC_JOB_LIMIT
  | WAIT_ASSOC_RESOURCE_LIMIT
  | WAIT_ASSOC_TIME_LIMIT
  | WAIT_QOS_JOB_LIMIT
  | WAIT_QOS_TIME_LIMIT
deriving DecidableEq

/-- Per-user used limits record (slurmdb_used_limits_t). -/
structure UsedLimits where
  uid : Nat
  jobs : Int
  cpus : Int
  nodes : Int
  submit_jobs : Int
deriving DecidableEq

/-- A freshly xmalloc-ed (zeroed) per-user record for the given uid. -/
def zeroUsed (uid : Nat) : UsedLimits := ⟨uid, 0, 0, 0, 0⟩

/-- Mirrors _get_used_limits_for_user: linear search of the per-user list. -/
def find_used_limits : List UsedLimits → Nat → Option UsedLimits
  | [], _ => none
  | u :: rest, uid => if u.uid = uid then some u else find_used_limits rest uid

/-- Apply f to the first per-user record carrying the given uid (the record
the C code mutates through the pointer obtained from the list search). -/
def updateFirstUser : List UsedLimits → Nat → (UsedLimits → UsedLimits) → List UsedLimits
  | [], _, _ => []
  | u :: rest, uid, f =>
      if u.uid = uid then f u :: rest else u :: updateFirstUser rest uid f

/-- Value of the per-user record seen for a uid: the first list entry with
that uid, or an all-zero record when none exists. -/
def userView (l : List UsedLimits) (uid : Nat) : UsedLimits :=
  (find_used_limits l uid).getD (zeroUsed uid)

/-- Usage block of a QOS (slurmdb_qos_usage_t fields the engine touches). -/
structure QosUsage where
  grp_used_jobs : Int
  grp_used_submit_jobs : Int
  grp_used_cpus : Int
  grp_used_mem : Int
  grp_used_nodes : Int
  grp_used_cpu_run_secs : Int
  grp_used_wall : Int
  usage_raw : Int
  user_limit_list : List UsedLimits
deriving DecidableEq

/-- A zeroed QOS usage block with an empty per-user list. -/
def emptyQosUsage : QosUsage := ⟨0, 0, 0, 0, 0, 0, 0, 0, []⟩

/-- Usage block of an association (the fields the engine touches). -/
structure AssocUsage where
  used_jobs : Int
  used_submit_jobs : Int
  grp_used_cpus : Int
  grp_used_mem : Int
  grp_used_nodes : Int
  grp_used_cpu_run_secs : Int
  grp_used_wall : Int
  usage_raw : Int
deriving DecidableEq

/-- A zeroed association usage block. -/
def emptyAssocUsage : AssocUsage := ⟨0, 0, 0, 0, 0, 0, 0, 0⟩

/-- Fields of struct job_record read by the usage adjuster. -/
structure Job where
  user_id : Nat
  total_cpus : Nat
  node_cnt : Nat
  time_limit : Nat
  pn_min_memory : Nat
deriving DecidableEq

/-- Mirrors the job_memory computation of _adjust_limit_usage (and of
acct_policy_job_runnable_post_select): bit 31 of pn_min_memory is the
MEM_PER_CPU flag; with it set the remaining bits are per-cpu, otherwise
per-node. -/
def job_memory_calc (pn cpus nodes : Nat) : Int :=
  if pn.testBit 31 then (((pn % 2 ^ 31) * cpus : Nat) : Int) else ((pn * nodes : Nat) : Int)

/-- Lifecycle event types of the usage adjuster. -/
inductive Ev where
  | addSubmit
  | remSubmit
  | jobBegin
  | jobFini
deriving DecidableEq

/-- Mirrors the C idiom `x -= d; if ((int32_t)x < 0) { x = 0; debug2(...); }`:
clamped subtraction, returning 1 when the underflow log fired. -/
def clampSubLog (x d : Int) : Int × Nat :=
  if x - d < 0 then (0, 1) else (x - d, 0)

/-- Mirrors the C idiom `if (x) x--; else debug2(...)`: guarded decrement,
returning 1 when the underflow log fired. -/
def guardDecLog (x : Int) : Int × Nat :=
  if x ≠ 0 then (x - 1, 0) else (x, 1)

/-- Lazy creation of the per-user record: mirrors the xmalloc of a zeroed
record and its list_append performed when the user has no entry yet. -/
def ensureUser (l : List UsedLimits) (u : Nat) : List UsedLimits :=
  if (find_used_limits l u).isSome then l else l ++ [zeroUsed u]

/-- Per-user delta applied on ADD_SUBMIT: used_limits->submit_jobs++. -/
def userAddSubmit : UsedLimits → UsedLimits :=
  fun u => { u with submit_jobs := u.submit_jobs + 1 }

/-- Per-user delta applied on REM_SUBMIT: used_limits->submit_jobs--. -/
def userRemSubmit : UsedLimits → UsedLimits :=
  fun u => { u with submit_jobs := u.submit_jobs - 1 }

/-- Per-user delta applied on JOB_BEGIN: jobs++, cpus += total_cpus,
nodes += node_cnt. -/
def userBegin (j : Job) : UsedLimits → UsedLimits :=
  fun u => { u with
      jobs := u.jobs + 1,
      cpus := u.cpus + (j.total_cpus : Int),
      nodes := u.nodes + (j.node_cnt : Int) }

/-- Writing the three clamped values computed on JOB_FINI into the
per-user record. -/
def userFiniVals (c jv n : Int) : UsedLimits → UsedLimits :=
  fun u => { u with cpus := c, jobs := jv, nodes := n }

/-- Mirrors _qos_adjust_limit_usage for one (non-null) QOS: lazily creates
the per-user record, then applies the per-event deltas.  The second
component counts the underflow debug logs emitted. -/
def qos_adjust_limit_usage (t : Ev) (j : Job) (used_cpu_run_secs jm : Int)
    (q : QosUsage) : QosUsage × Nat :=
  let l1 := ensureUser q.user_limit_list j.user_id
  let ul := userView l1 j.user_id
  match t with
  | .addSubmit =>
      ({ q with
          grp_used_submit_jobs := q.grp_used_submit_jobs + 1,
          user_limit_list := updateFirstUser l1 j.user_id userAddSubmit }, 0)
  | .remSubmit =>
      let gp := guardDecLog q.grp_used_submit_jobs
      let lp : List UsedLimits × Nat :=
        if ul.submit_jobs ≠ 0
        then (updateFirstUser l1 j.user_id userRemSubmit, 0)
        else (l1, 1)
      ({ q with grp_used_submit_jobs := gp.1, user_limit_list := lp.1 },
       gp.2 + lp.2)
  | .jobBegin =>
      ({ q with
          grp_used_jobs := q.grp_used_jobs + 1,
          grp_used_cpus := q.grp_used_cpus + (j.total_cpus : Int),
          grp_used_mem := q.grp_used_mem + jm,
          grp_used_nodes := q.grp_used_nodes + (j.node_cnt : Int),
          grp_used_cpu_run_secs := q.grp_used_cpu_run_secs + used_cpu_run_secs,
          user_limit_list := updateFirstUser l1 j.user_id (userBegin j) }, 0)
  | .jobFini =>
      let gj := clampSubLog q.grp_used_jobs 1
      let gc := clampSubLog q.grp_used_cpus (j.total_cpus : Int)
      let gm := clampSubLog q.grp_used_mem jm
      let gn := clampSubLog q.grp_used_nodes (j.node_cnt : Int)
      let uc := clampSubLog ul.cpus (j.total_cpus : Int)
      let uj := clampSubLog ul.jobs 1
      let un := clampSubLog ul.nodes (j.node_cnt : Int)
      ({ q with
          grp_used_jobs := gj.1,
          grp_used_cpus := gc.1,
          grp_used_mem := gm.1,
          grp_used_nodes := gn.1,
          user_limit_list := updateFirstUser l1 j.user_id
            (userFiniVals uc.1 uj.1 un.1) },
       gj.2 + gc.2 + gm.2 + gn.2 + uc.2 + uj.2 + un.2)

/-- Mirrors the per-association switch of _adjust_limit_usage.
Note that the JOB_FINI case subtracts used_jobs, grp_used_cpus,
grp_used_mem and grp_used_nodes but never touches grp_used_cpu_run_secs,
exactly as the source does. -/
def assoc_adjust_limit_usage (t : Ev) (j : Job) (used_cpu_run_secs jm : Int)
    (a : AssocUsage) : AssocUsage × Nat :=
  match t with
  | .addSubmit =>
      ({ a with used_submit_jobs := a.used_submit_jobs + 1 }, 0)
  | .remSubmit =>
      let p := guardDecLog a.used_submit_jobs
      ({ a with used_submit_jobs := p.1 }, p.2)
  | .jobBegin =>
      ({ a with
          used_jobs := a.used_jobs + 1,
          grp_used_cpus := a.grp_used_cpus + (j.total_cpus : Int),
          grp_used_mem := a.grp_used_mem + jm,
          grp_used_nodes := a.grp_used_nodes + (j.node_cnt : Int),
          grp_used_cpu_run_secs := a.grp_used_cpu_run_secs + used_cpu_run_secs }, 0)
  | .jobFini =>
      let uj := guardDecLog a.used_jobs
      let gc := clampSubLog a.grp_used_cpus (j.total_cpus : Int)
      let gm := clampSubLog a.grp_used_mem jm
      let gn := clampSubLog a.grp_used_nodes (j.node_cnt : Int)
      ({ a with
          used_jobs := uj.1,
          grp_used_cpus := gc.1,
          grp_used_mem := gm.1,
          grp_used_nodes := gn.1 }, uj.2 + gc.2 + gm.2 + gn.2)

/-- Mirrors the `while (assoc_ptr) { ...; assoc_ptr = parent; }` walk of
_adjust_limit_usage over the chain from the job association up to and
including the chain end (the association whose parent pointer is null,
i.e. the root). -/
def adjust_assoc_walk (t : Ev) (j : Job) (ucrs jm : Int) :
    List AssocUsage → List AssocUsage × Nat
  | [] => ([], 0)
  | a :: rest =>
      let p := assoc_adjust_limit_usage t j ucrs jm a
      let q := adjust_assoc_walk t j ucrs jm rest
      (p.1 :: q.1, p.2 + q.2)

/-- Mutable accounting state seen by the usage adjuster: the two ordered
QOS usage blocks produced by _set_qos_order, the association chain from
the job association to the root (last element), and the count of emitted
underflow debug logs. -/
structure World where
  qos1 : Option QosUsage
  qos2 : Option QosUsage
  chain : List AssocUsage
  logs : Nat
deriving DecidableEq

/-- Apply the QOS adjustment to an optional QOS pointer (null is a no-op,
exactly as _qos_adjust_limit_usage returns immediately on a null qos). -/
def adjust_qos_opt (t : Ev) (j : Job) (ucrs jm : Int) :
    Option QosUsage → Option QosUsage × Nat
  | none => (none, 0)
  | some q =>
      let p := qos_adjust_limit_usage t j ucrs jm q
      (some p.1, p.2)

/-- The used_cpu_run_secs value computed by _adjust_limit_usage: zero
except on JOB_BEGIN, where it is total_cpus * time_limit * 60 in 64 bits. -/
def adj_run_secs (t : Ev) (j : Job) : Int :=
  if t = Ev.jobBegin then ((j.total_cpus * j.time_limit * 60 : Nat) : Int) else 0

/-- The job_memory value computed by _adjust_limit_usage. -/
def adj_job_memory (j : Job) : Int :=
  job_memory_calc j.pn_min_memory j.total_cpus j.node_cnt

/-- Mirrors _adjust_limit_usage: guarded by ACCOUNTING_ENFORCE_LIMITS,
computes used_cpu_run_secs and job_memory, applies the per-event deltas to
QOS 1, QOS 2 and then every association of the chain. -/
def adjust_limit_usage (enforce_limits : Bool) (t : Ev) (j : Job) (w : World) : World :=
  if ¬ enforce_limits then w else
  let ucrs := adj_run_secs t j
  let jm := adj_job_memory j
  let p1 := adjust_qos_opt t j ucrs jm w.qos1
  let p2 := adjust_qos_opt t j ucrs jm w.qos2
  let pc := adjust_assoc_walk t j ucrs jm w.chain
  ⟨p1.1, p2.1, pc.1, w.logs + p1.2 + p2.2 + pc.2⟩

/-- Apply a sequence of lifecycle events through the usage adjuster. -/
def applyEvents (enforce : Bool) (j : Job) : List Ev → World → World
  | [], w => w
  | t :: rest, w => applyEvents enforce j rest (adjust_limit_usage enforce t j w)

/-- QOS record (slurmdb_qos_rec_t): flags, the limit fields the engine
reads, and the usage block.  The id models pointer identity inside the
association manager. -/
structure QosRec where
  id : Nat
  flag_part_qos : Bool
  flag_deny_limit : Bool
  grp_cpu_mins : Int
  grp_cpu_run_mins : Int
  grp_cpus : Int
  grp_jobs : Int
  grp_mem : Int
  grp_nodes : Int
  grp_submit_jobs : Int
  grp_wall : Int
  max_cpu_mins_pj : Int
  max_cpus_pj : Int
  max_cpus_pu : Int
  min_cpus_pj : Int
  max_jobs_pu : Int
  max_nodes_pj : Int
  max_nodes_pu : Int
  max_submit_jobs_pu : Int
  max_wall_pj : Int
  usage : QosUsage
deriving DecidableEq

/-- Mirrors slurmdb_init_qos_rec(&qos_rec, 0, INFINITE): a scratch QOS
record with every limit set to INFINITE. -/
def initQosRec : QosRec :=
  ⟨0, false, false, INFINITE, INFINITE, INFINITE, INFINITE, INFINITE, INFINITE,
   INFINITE, INFINITE, INFINITE, INFINITE, INFINITE, INFINITE, INFINITE,
   INFINITE, INFINITE, INFINITE, INFINITE, emptyQosUsage⟩

/-- Mirrors _set_qos_order: produce the ordered (primary, secondary) QOS
pair from the job QOS and the partition QOS.  The C pointer comparison
`*qos_ptr_1 == *qos_ptr_2` is modelled by comparison of the id fields. -/
def set_qos_order (jobQos partQos : Option QosRec) : Option QosRec × Option QosRec :=
  match jobQos with
  | some jq =>
      match partQos with
      | some pq =>
          let q1 := if jq.flag_part_qos then jq else pq
          let q2 := if jq.flag_part_qos then pq else jq
          if q1.id = q2.id then (some q1, none) else (some q1, some q2)
      | none => (some jq, none)
  | none =>
      match partQos with
      | some pq => (some pq, none)
      | none => (none, none)

/-- Association record (slurmdb_assoc_rec_t): the limit fields the engine
reads.  The fields named with a _cpu suffix model the values obtained by
slurmdb_find_tres_count_in_string on the corresponding TRES string with
key TRES_CPU; root marks assoc_mgr_root_assoc. -/
structure AssocRec where
  id : Nat
  root : Bool
  grp_tres_ctld : List Int
  grp_tres_mins_cpu : Int
  grp_tres_cpu : Int
  grp_tres_run_mins_cpu : Int
  grp_jobs : Int
  grp_mem : Int
  grp_nodes : Int
  grp_submit_jobs : Int
  grp_wall : Int
  max_tres_ctld : List Int
  max_tres_pj_cpu : Int
  max_tres_mins_pj_cpu : Int
  max_jobs : Int
  max_nodes_pj : Int
  max_submit_jobs : Int
  max_wall_pj : Int
  usage : AssocUsage
deriving DecidableEq

/-- Fields of job_desc_msg_t read by the submit-time validator.  job_cnt
models bit_set_count(array_bitmap) and is 1 when no array bitmap is
present. -/
structure JobDesc where
  user_id : Nat
  time_limit : Int
  min_nodes : Int
  max_nodes : Int
  tres_req_cnt : List Int
  job_cnt : Int
deriving DecidableEq

/-- The acct_policy_limit_set_t provenance record. -/
structure LimitSet where
  time : Int
  max_nodes : Int
  min_nodes : Int
  max_tres : List Int
  min_tres : List Int
deriving DecidableEq

/-- Partition fields read by the engine. -/
structure Partition where
  max_time : Int
  qos : Option QosRec
deriving DecidableEq

/-- Mutable state threaded through acct_policy_validate: the job
descriptor, the caller limit-set record, the scratch qos_rec and the
caller reason slot. -/
structure VSt where
  desc : JobDesc
  ls : LimitSet
  qosOut : QosRec
  reason : Option Reason
deriving DecidableEq

/-- Mirrors `if (reason) *reason = r;`. -/
def setReason (hasReason : Bool) (r : Reason) (s : VSt) : VSt :=
  if hasReason then { s with reason := some r } else s

/-- Short-circuiting sequencing of validator blocks: once a block has
failed (second component false), later blocks are not run. -/
def vthen (r : VSt × Bool) (f : VSt → VSt × Bool) : VSt × Bool :=
  match r with
  | (s, false) => (s, false)
  | (s, true) => f s

/-- Mirrors _validate_tres_limits: under strict checking, every TRES
position violates nothing, where a position is skipped when the admin set
the limit, the QOS covers it, the association leaves it unlimited, or an
update call carries no job value. -/
def validate_tres_limits (strict update_call : Bool)
    (job_tres assoc_tres qos_tres admin_tres : List Int) : Bool :=
  if ¬ strict then true
  else (List.range g_tres_count).all (fun i =>
    ¬ ((admin_tres.getD i 0 ≠ ADMIN_SET_LIMIT) ∧
       (qos_tres.getD i 0 = INFINITE) ∧
       (assoc_tres.getD i 0 ≠ INFINITE) ∧
       (job_tres.getD i 0 ≠ 0 ∨ ¬ update_call) ∧
       (job_tres.getD i 0 > assoc_tres.getD i 0)))

/-- Tail of _qos_policy_validate: the max-wall-per-job narrowing of the
implied wall ceiling qtl0, the application of the ceiling to the job time
limit, and the min-cpus-per-job check. -/
def qos_validate_wall (qp : QosRec) (part : Partition)
    (hasReason update_call strict : Bool) (qtl0 : Int) (s : VSt) : VSt × Bool :=
  -- max wall per job narrows the implied wall ceiling
  let p9 : VSt × Int :=
    if (s.ls.time = ADMIN_SET_LIMIT)
       ∨ (s.qosOut.max_wall_pj ≠ INFINITE)
       ∨ (qp.max_wall_pj = INFINITE)
       ∨ (update_call ∧ s.desc.time_limit = NO_VAL)
    then (s, qtl0)
    else
      ({ s with qosOut := { s.qosOut with max_wall_pj := qp.max_wall_pj } },
       if qtl0 > qp.max_wall_pj then qp.max_wall_pj else qtl0)
  let s9 := p9.1
  let qtl := p9.2
  -- apply the wall ceiling to the job time limit
  let step10 : VSt × Bool :=
    if qtl ≠ INFINITE then
      if s9.desc.time_limit = NO_VAL then
        let t := if part.max_time = INFINITE then qtl else min qtl part.max_time
        ({ s9 with desc := { s9.desc with time_limit := t },
                   ls := { s9.ls with time := 1 } }, true)
      else if (s9.ls.time ≠ 0) ∧ (s9.desc.time_limit > qtl) then
        ({ s9 with desc := { s9.desc with time_limit := qtl } }, true)
      else if strict ∧ (s9.desc.time_limit > qtl) then
        (setReason hasReason Reason.WAIT_QOS_MAX_WALL_PER_JOB s9, false)
      else (s9, true)
    else (s9, true)
  vthen step10 (fun s =>
  -- min cpus per job
  if strict ∧ (s.qosOut.min_cpus_pj = INFINITE) ∧ (qp.min_cpus_pj ≠ INFINITE) then
    let s1 := { s with qosOut := { s.qosOut with min_cpus_pj := qp.min_cpus_pj } }
    if s.desc.tres_req_cnt.getD TRES_ARRAY_CPU 0 < qp.min_cpus_pj then
      (setReason hasReason Reason.WAIT_QOS_MIN_CPUS s1, false)
    else (s1, true)
  else (s, true))

/-- Middle of _qos_policy_validate, entered with the implied wall ceiling
qtl0 computed by the max-cpu-mins-per-job block: the (dead) max-cpus-per-job
block, the max-nodes-per-job check and the per-user submit check, followed
by the tail blocks of qos_validate_wall. -/
def qos_validate_tail (qp : QosRec) (part : Partition)
    (hasReason update_call strict : Bool) (job_cnt : Int) (qtl0 : Int)
    (s5 : VSt) : VSt × Bool :=
  -- max cpus per job: `qos_out_ptr->max_cpus_pj |= INFINITE` in the
  -- source or-assigns the all-ones mask into the field, so the field
  -- becomes INFINITE and the expression value INFINITE is nonzero;
  -- the || disjunct is therefore always true once reached and the
  -- comparison below it is dead code.  The admin-set disjunct to its
  -- left short-circuits before the or-assign happens.
  let s6 :=
    if s5.ls.max_tres.getD TRES_ARRAY_CPU 0 = ADMIN_SET_LIMIT then s5
    else { s5 with qosOut := { s5.qosOut with max_cpus_pj := INFINITE } }
  -- max nodes per job
  let step7 : VSt × Bool :=
    if (s6.ls.max_nodes = ADMIN_SET_LIMIT)
       ∨ (s6.qosOut.max_nodes_pj ≠ INFINITE)
       ∨ (qp.max_nodes_pj = INFINITE)
       ∨ (update_call ∧ s6.desc.max_nodes = NO_VAL)
    then (s6, true)
    else if strict ∧ s6.desc.min_nodes ≠ NO_VAL then
      let s1 := { s6 with qosOut := { s6.qosOut with max_nodes_pj := qp.max_nodes_pj } }
      if s6.desc.min_nodes > qp.max_nodes_pj then
        (setReason hasReason Reason.WAIT_QOS_MAX_NODE_PER_JOB s1, false)
      else (s1, true)
    else (s6, true)
  vthen step7 (fun s =>
  -- per-user submit jobs
  let step8 : VSt × Bool :=
    if (s.qosOut.max_submit_jobs_pu = INFINITE) ∧ (qp.max_submit_jobs_pu ≠ INFINITE) then
      let s1 := { s with qosOut := { s.qosOut with max_submit_jobs_pu := qp.max_submit_jobs_pu } }
      match find_used_limits qp.usage.user_limit_list s.desc.user_id with
      | none =>
          if qp.max_submit_jobs_pu = 0 then
            (setReason hasReason Reason.WAIT_QOS_MAX_SUB_JOB s1, false)
          else (s1, true)
      | some ul =>
          if ul.submit_jobs + job_cnt > qp.max_submit_jobs_pu then
            (setReason hasReason Reason.WAIT_QOS_MAX_SUB_JOB s1, false)
          else (s1, true)
    else (s, true)
  vthen step8 (fun s =>
  qos_validate_wall qp part hasReason update_call strict qtl0 s))

/-- Mirrors _qos_policy_validate for one (possibly null) QOS of the
ordered pair.  job_memory is the caller-passed tres_req_cnt[TRES_ARRAY_MEM]
and job_cnt the array task count.  Returns the updated state and the rc. -/
def qos_policy_validate (q? : Option QosRec) (part : Partition)
    (hasReason update_call strict : Bool) (job_memory job_cnt : Int)
    (s0 : VSt) : VSt × Bool :=
  match q? with
  | none => (s0, true)
  | some qp =>
    -- per-user cpu cap and group cpu cap
    let step1 : VSt × Bool :=
      let qos_max_cpus_limit := min qp.grp_cpus qp.max_cpus_pu
      let qos_out_max_cpus_limit := min s0.qosOut.grp_cpus s0.qosOut.max_cpus_pu
      if (s0.ls.max_tres.getD TRES_ARRAY_CPU 0 = ADMIN_SET_LIMIT)
         ∨ (qos_out_max_cpus_limit ≠ INFINITE)
         ∨ (qos_max_cpus_limit = INFINITE)
         ∨ (update_call ∧ s0.desc.tres_req_cnt.getD TRES_ARRAY_CPU 0 = NO_VAL)
      then (s0, true)
      else if strict ∧ s0.desc.tres_req_cnt.getD TRES_ARRAY_CPU 0 ≠ NO_VAL then
        let o1 := if s0.qosOut.max_cpus_pu = INFINITE
                  then { s0.qosOut with max_cpus_pu := qp.max_cpus_pu } else s0.qosOut
        let o2 := if o1.grp_cpus = INFINITE
                  then { o1 with grp_cpus := qp.grp_cpus } else o1
        let s1 := { s0 with qosOut := o2 }
        if s0.desc.tres_req_cnt.getD TRES_ARRAY_CPU 0 > qp.max_cpus_pu then
          (setReason hasReason Reason.WAIT_QOS_MAX_CPU_PER_USER s1, false)
        else if s0.desc.tres_req_cnt.getD TRES_ARRAY_CPU 0 > qp.grp_cpus then
          (setReason hasReason Reason.WAIT_QOS_GRP_CPU s1, false)
        else (s1, true)
      else (s0, true)
    vthen step1 (fun s =>
    -- group memory
    let step2 : VSt × Bool :=
      if (s.ls.max_tres.getD TRES_ARRAY_MEM 0 = 0) ∧ strict
         ∧ (s.qosOut.grp_mem = INFINITE) ∧ (qp.grp_mem ≠ INFINITE) then
        let s1 := { s with qosOut := { s.qosOut with grp_mem := qp.grp_mem } }
        if job_memory > qp.grp_mem then
          (setReason hasReason Reason.WAIT_QOS_GRP_MEMORY s1, false)
        else (s1, true)
      else (s, true)
    vthen step2 (fun s =>
    -- per-user node cap and group node cap
    let step3 : VSt × Bool :=
      let qos_max_nodes_limit := min qp.grp_nodes qp.max_nodes_pu
      let qos_out_max_nodes_limit := min s.qosOut.grp_nodes s.qosOut.max_nodes_pu
      if (s.ls.max_nodes = ADMIN_SET_LIMIT)
         ∨ (qos_out_max_nodes_limit ≠ INFINITE)
         ∨ (qos_max_nodes_limit = INFINITE)
         ∨ (update_call ∧ s.desc.max_nodes = NO_VAL)
      then (s, true)
      else if strict ∧ s.desc.min_nodes ≠ NO_VAL then
        let o1 := if s.qosOut.max_nodes_pu = INFINITE
                  then { s.qosOut with max_nodes_pu := qp.max_nodes_pu } else s.qosOut
        let o2 := if o1.grp_nodes = INFINITE
                  then { o1 with grp_nodes := qp.grp_nodes } else o1
        let s1 := { s with qosOut := o2 }
        if s.desc.min_nodes > qp.max_nodes_pu then
          (setReason hasReason Reason.WAIT_QOS_MAX_NODE_PER_USER s1, false)
        else if s.desc.min_nodes > qp.grp_nodes then
          (setReason hasReason Reason.WAIT_QOS_GRP_NODES s1, false)
        else (s1, true)
      else (s, true)
    vthen step3 (fun s =>
    -- group submit jobs
    let step4 : VSt × Bool :=
      if (s.qosOut.grp_submit_jobs = INFINITE) ∧ (qp.grp_submit_jobs ≠ INFINITE) then
        let s1 := { s with qosOut := { s.qosOut with grp_submit_jobs := qp.grp_submit_jobs } }
        if qp.usage.grp_used_submit_jobs + job_cnt > qp.grp_submit_jobs then
          (setReason hasReason Reason.WAIT_QOS_GRP_SUB_JOB s1, false)
        else (s1, true)
      else (s, true)
    vthen step4 (fun s =>
    -- max cpu minutes per job: compute the implied wall ceiling
    let p5 : VSt × Int :=
      if ((s.desc.tres_req_cnt.getD TRES_ARRAY_CPU 0 ≠ NO_VAL)
            ∨ (s.desc.min_nodes ≠ NO_VAL))
         ∧ (s.qosOut.max_cpu_mins_pj = INFINITE)
         ∧ (qp.max_cpu_mins_pj ≠ INFINITE) then
        let cpu_cnt :=
          if (s.desc.min_nodes = NO_VAL)
             ∨ (s.desc.tres_req_cnt.getD TRES_ARRAY_CPU 0 > s.desc.min_nodes)
          then s.desc.tres_req_cnt.getD TRES_ARRAY_CPU 0
          else s.desc.min_nodes
        ({ s with qosOut := { s.qosOut with max_cpu_mins_pj := qp.max_cpu_mins_pj } },
         qp.max_cpu_mins_pj / cpu_cnt)
      else (s, INFINITE)
    qos_validate_tail qp part hasReason update_call strict job_cnt p5.2 p5.1))))

/-- The fudged qos TRES vector of acct_policy_validate: memset to zero,
then the CPU and MEM positions set from the scratch qos_rec. -/
def qos_tres_vector (c m : Int) : List Int := [c, m, 0, 0]

/-- Mirrors the association-chain loop of acct_policy_validate; par marks
whether the current node is a parent (per-job limits pre-propagated and
hence skipped). -/
def validate_assoc_loop (hasReason update_call strict : Bool) (part : Partition)
    (job_cnt : Int) : List AssocRec → Bool → VSt → VSt × Bool
  | [], _, s => (s, true)
  | a :: rest, par, s =>
    -- group tres limits
    if ¬ validate_tres_limits strict update_call s.desc.tres_req_cnt
          a.grp_tres_ctld (qos_tres_vector s.qosOut.grp_cpus s.qosOut.grp_mem)
          s.ls.max_tres then
      (setReason hasReason Reason.WAIT_ASSOC_GRP_CPU s, false)
    -- group node limit
    else if (¬ ((s.ls.max_nodes = ADMIN_SET_LIMIT)
                 ∨ (s.qosOut.grp_nodes ≠ INFINITE)
                 ∨ (a.grp_nodes = INFINITE)
                 ∨ (update_call ∧ s.desc.max_nodes = NO_VAL)))
            ∧ strict ∧ (s.desc.min_nodes ≠ NO_VAL)
            ∧ (s.desc.min_nodes > a.grp_nodes) then
      (setReason hasReason Reason.WAIT_ASSOC_GRP_NODES s, false)
    -- group submit limit
    else if (s.qosOut.grp_submit_jobs = INFINITE)
            ∧ (a.grp_submit_jobs ≠ INFINITE)
            ∧ (a.usage.used_submit_jobs + job_cnt > a.grp_submit_jobs) then
      (setReason hasReason Reason.WAIT_ASSOC_GRP_SUB_JOB s, false)
    else if par then
      validate_assoc_loop hasReason update_call strict part job_cnt rest true s
    -- per-job tres limits (first chain node only)
    else if ¬ validate_tres_limits strict update_call s.desc.tres_req_cnt
               a.max_tres_ctld (qos_tres_vector s.qosOut.max_cpus_pj INFINITE)
               s.ls.max_tres then
      (setReason hasReason Reason.WAIT_ASSOC_MAX_CPUS_PER_JOB s, false)
    -- max nodes per job
    else if (¬ ((s.ls.max_nodes = ADMIN_SET_LIMIT)
                 ∨ (s.qosOut.max_nodes_pj ≠ INFINITE)
                 ∨ (a.max_nodes_pj = INFINITE)
                 ∨ (update_call ∧ s.desc.max_nodes = NO_VAL)))
            ∧ strict ∧ (s.desc.min_nodes ≠ NO_VAL)
            ∧ (s.desc.min_nodes > a.max_nodes_pj) then
      (setReason hasReason Reason.WAIT_ASSOC_MAX_NODE_PER_JOB s, false)
    -- max submit jobs
    else if (s.qosOut.max_submit_jobs_pu = INFINITE)
            ∧ (a.max_submit_jobs ≠ INFINITE)
            ∧ (a.usage.used_submit_jobs + job_cnt > a.max_submit_jobs) then
      (setReason hasReason Reason.WAIT_ASSOC_MAX_SUB_JOB s, false)
    -- max wall per job with the partition clip
    else
      let p : VSt × Bool :=
        if (s.ls.time = ADMIN_SET_LIMIT)
           ∨ (s.qosOut.max_wall_pj ≠ INFINITE)
           ∨ (a.max_wall_pj = INFINITE)
           ∨ (update_call ∧ s.desc.time_limit = NO_VAL)
        then (s, true)
        else
          let tl := a.max_wall_pj
          if s.desc.time_limit = NO_VAL then
            let t := if part.max_time = INFINITE then tl else min tl part.max_time
            ({ s with desc := { s.desc with time_limit := t },
                      ls := { s.ls with time := 1 } }, true)
          else if (s.ls.time ≠ 0) ∧ (s.desc.time_limit > tl) then
            ({ s with desc := { s.desc with time_limit := tl } }, true)
          else if strict ∧ (s.desc.time_limit > tl) then
            (setReason hasReason Reason.WAIT_ASSOC_MAX_WALL_PER_JOB s, false)
          else (s, true)
      match p with
      | (s1, false) => (s1, false)
      | (s1, true) =>
          validate_assoc_loop hasReason update_call strict part job_cnt rest true s1

/-- Result of acct_policy_validate: the rc and the output values written
through the caller pointers. -/
structure ValidateResult where
  rc : Bool
  desc : JobDesc
  ls : LimitSet
  reason : Option Reason
deriving DecidableEq

/-- Mirrors acct_policy_validate.  chain is the association chain from the
job association to the root (must be nonempty, as the source errors out on
a null assoc_ptr); hasReason models the nullness of the reason pointer. -/
def acct_policy_validate (desc : JobDesc) (part : Partition)
    (chain : List AssocRec) (jobQos : Option QosRec) (hasReason : Bool)
    (ls : LimitSet) (update_call : Bool) : ValidateResult :=
  match chain with
  | [] => ⟨false, desc, ls, none⟩
  | _ :: _ =>
    let qpair := set_qos_order jobQos part.qos
    let strict :=
      match qpair.1 with
      | some q1 =>
          hasReason || q1.flag_deny_limit
            || (match qpair.2 with
                | some q2 => q2.flag_deny_limit
                | none => false)
      | none => hasReason
    let s0 : VSt := ⟨desc, ls, initQosRec, none⟩
    let jm := desc.tres_req_cnt.getD TRES_ARRAY_MEM 0
    let p1 := qos_policy_validate qpair.1 part hasReason update_call strict jm desc.job_cnt s0
    match p1 with
    | (s1, false) => ⟨false, s1.desc, s1.ls, s1.reason⟩
    | (s1, true) =>
      let p2 := qos_policy_validate qpair.2 part hasReason update_call strict jm desc.job_cnt s1
      match p2 with
      | (s2, false) => ⟨false, s2.desc, s2.ls, s2.reason⟩
      | (s2, true) =>
        let p3 := validate_assoc_loop hasReason update_call strict part desc.job_cnt chain false s2
        ⟨p3.2, p3.1.desc, p3.1.ls, p3.1.reason⟩

/-- Global accounting_enforce bitmask flags read by the engine. -/
structure EnforceFlags where
  limits : Bool
  safe : Bool
  associations : Bool
deriving DecidableEq

/-- Fields of struct job_record read by the runnable checks and the
time-out evaluator. -/
structure JobR where
  user_id : Nat
  time_limit : Int
  total_cpus : Nat
  start_time : Int
  tot_sus_time : Int
  state_reason : Reason
  ls : LimitSet
deriving DecidableEq

/-- Wait reasons of the contiguous policy-hold enumeration range.
Modelled from the spec: the range [WAIT_QOS_GRP_CPU .. WAIT_ASSOC_MAX_SUB_JOB]
of the wait_reason enumeration (declared outside this repository slice) is
tested as a single interval by acct_policy_job_runnable_state. -/
def policy_wait_reasons : List Reason :=
  [Reason.WAIT_QOS_GRP_CPU, Reason.WAIT_QOS_GRP_CPU_MIN,
   Reason.WAIT_QOS_GRP_CPU_RUN_MIN, Reason.WAIT_QOS_GRP_JOB,
   Reason.WAIT_QOS_GRP_MEMORY, Reason.WAIT_QOS_GRP_NODES,
   Reason.WAIT_QOS_GRP_SUB_JOB, Reason.WAIT_QOS_GRP_WALL,
   Reason.WAIT_QOS_MAX_CPU_MINS_PER_JOB, Reason.WAIT_QOS_MAX_CPUS_PER_JOB,
   Reason.WAIT_QOS_MAX_CPU_PER_USER, Reason.WAIT_QOS_MAX_JOB_PER_USER,
   Reason.WAIT_QOS_MAX_NODE_PER_JOB, Reason.WAIT_QOS_MAX_NODE_PER_USER,
   Reason.WAIT_QOS_MAX_SUB_JOB, Reason.WAIT_QOS_MAX_WALL_PER_JOB,
   Reason.WAIT_QOS_MIN_CPUS, Reason.WAIT_ASSOC_GRP_CPU,
   Reason.WAIT_ASSOC_GRP_CPU_MIN, Reason.WAIT_ASSOC_GRP_CPU_RUN_MIN,
   Reason.WAIT_ASSOC_GRP_JOB, Reason.WAIT_ASSOC_GRP_MEMORY,
   Reason.WAIT_ASSOC_GRP_NODES, Reason.WAIT_ASSOC_GRP_SUB_JOB,
   Reason.WAIT_ASSOC_GRP_WALL, Reason.WAIT_ASSOC_MAX_JOBS,
   Reason.WAIT_ASSOC_MAX_CPU_MINS_PER_JOB, Reason.WAIT_ASSOC_MAX_CPUS_PER_JOB,
   Reason.WAIT_ASSOC_MAX_NODE_PER_JOB, Reason.WAIT_ASSOC_MAX_SUB_JOB,
   Reason.WAIT_ASSOC_MAX_WALL_PER_JOB]

/-- Mirrors acct_policy_job_runnable_state: false when the state reason is
one of the policy-hold codes. -/
def acct_policy_job_runnable_state (r : Reason) : Bool :=
  ¬ (r ∈ policy_wait_reasons
     ∨ r = Reason.WAIT_ASSOC_JOB_LIMIT
     ∨ r = Reason.WAIT_ASSOC_RESOURCE_LIMIT
     ∨ r = Reason.WAIT_ASSOC_TIME_LIMIT
     ∨ r = Reason.WAIT_QOS_JOB_LIMIT
     ∨ r = Reason.WAIT_QOS_TIME_LIMIT)

/-- A check block of the pre/post-select QOS passes: takes the scratch
qos_rec, returns the updated scratch and an optional failure reason. -/
def qstep (f : QosRec → QosRec × Option Reason) :
    QosRec × Option Reason → QosRec × Option Reason
  | (q, some r) => (q, some r)
  | (q, none) => f q

/-- Run a list of check blocks in order, stopping at the first failure. -/
def qrun (bs : List (QosRec → QosRec × Option Reason))
    (s : QosRec × Option Reason) : QosRec × Option Reason :=
  match bs with
  | [] => s
  | f :: fs => qrun fs (qstep f s)

/-- grp_cpu_mins block of _qos_job_runnable_post_select, with the
safe-limits variant: under ACCOUNTING_ENFORCE_SAFE the job must also fit
in the remaining cpu-minute budget. -/
def ps_grp_cpu_mins (safe : Bool) (qp : QosRec)
    (usage_mins cpu_run_mins job_ctl : Int) (qr : QosRec) :
    QosRec × Option Reason :=
  if (qr.grp_cpu_mins = INFINITE) ∧ (qp.grp_cpu_mins ≠ INFINITE) then
    let qr1 := { qr with grp_cpu_mins := qp.grp_cpu_mins }
    if usage_mins ≥ qp.grp_cpu_mins then
      (qr1, some Reason.WAIT_QOS_GRP_CPU_MIN)
    else if safe ∧ (job_ctl + cpu_run_mins > qp.grp_cpu_mins - usage_mins) then
      (qr1, some Reason.WAIT_QOS_GRP_CPU_MIN)
    else (qr1, none)
  else (qr, none)

/-- grp_cpus block of _qos_job_runnable_post_select. -/
def ps_grp_cpus (j : JobR) (qp : QosRec) (cpu_cnt : Nat) (qr : QosRec) :
    QosRec × Option Reason :=
  if (j.ls.min_tres.getD TRES_ARRAY_CPU 0 ≠ ADMIN_SET_LIMIT)
     ∧ (qr.grp_cpus = INFINITE) ∧ (qp.grp_cpus ≠ INFINITE) then
    let qr1 := { qr with grp_cpus := qp.grp_cpus }
    if (cpu_cnt : Int) > qp.grp_cpus then
      (qr1, some Reason.WAIT_QOS_GRP_CPU)
    else if qp.usage.grp_used_cpus + (cpu_cnt : Int) > qp.grp_cpus then
      (qr1, some Reason.WAIT_QOS_GRP_CPU)
    else (qr1, none)
  else (qr, none)

/-- grp_mem block of _qos_job_runnable_post_select. -/
def ps_grp_mem (adminMem : Bool) (qp : QosRec) (jm : Int) (qr : QosRec) :
    QosRec × Option Reason :=
  if (¬ adminMem) ∧ (qr.grp_mem = INFINITE) ∧ (qp.grp_mem ≠ INFINITE) then
    let qr1 := { qr with grp_mem := qp.grp_mem }
    if jm > qp.grp_mem then
      (qr1, some Reason.WAIT_QOS_GRP_MEMORY)
    else if qp.usage.grp_used_mem + jm > qp.grp_mem then
      (qr1, some Reason.WAIT_QOS_GRP_MEMORY)
    else (qr1, none)
  else (qr, none)

/-- grp_cpu_run_mins block of _qos_job_runnable_post_select. -/
def ps_grp_cpu_run_mins (qp : QosRec) (cpu_run_mins job_ctl : Int)
    (qr : QosRec) : QosRec × Option Reason :=
  if (qr.grp_cpu_run_mins = INFINITE) ∧ (qp.grp_cpu_run_mins ≠ INFINITE) then
    let qr1 := { qr with grp_cpu_run_mins := qp.grp_cpu_run_mins }
    if cpu_run_mins + job_ctl > qp.grp_cpu_run_mins then
      (qr1, some Reason.WAIT_QOS_GRP_CPU_RUN_MIN)
    else (qr1, none)
  else (qr, none)

/-- grp_nodes block of _qos_job_runnable_post_select. -/
def ps_grp_nodes (j : JobR) (qp : QosRec) (node_cnt : Nat) (qr : QosRec) :
    QosRec × Option Reason :=
  if (j.ls.min_nodes ≠ ADMIN_SET_LIMIT)
     ∧ (qr.grp_nodes = INFINITE) ∧ (qp.grp_nodes ≠ INFINITE) then
    let qr1 := { qr with grp_nodes := qp.grp_nodes }
    if (node_cnt : Int) > qp.grp_nodes then
      (qr1, some Reason.WAIT_QOS_GRP_NODES)
    else if qp.usage.grp_used_nodes + (node_cnt : Int) > qp.grp_nodes then
      (qr1, some Reason.WAIT_QOS_GRP_NODES)
    else (qr1, none)
  else (qr, none)

/-- max_cpu_mins_pj block of _qos_job_runnable_post_select. -/
def ps_max_cpu_mins_pj (j : JobR) (qp : QosRec) (job_ctl : Int)
    (qr : QosRec) : QosRec × Option Reason :=
  if (qr.max_cpu_mins_pj = INFINITE) ∧ (qp.max_cpu_mins_pj ≠ INFINITE) then
    let qr1 := { qr with max_cpu_mins_pj := qp.max_cpu_mins_pj }
    if (j.time_limit ≠ NO_VAL) ∧ (job_ctl > qp.max_cpu_mins_pj) then
      (qr1, some Reason.WAIT_QOS_MAX_CPU_MINS_PER_JOB)
    else (qr1, none)
  else (qr, none)

/-- max_cpus_pj block of _qos_job_runnable_post_select. -/
def ps_max_cpus_pj (j : JobR) (qp : QosRec) (cpu_cnt : Nat) (qr : QosRec) :
    QosRec × Option Reason :=
  if (j.ls.min_tres.getD TRES_ARRAY_CPU 0 ≠ ADMIN_SET_LIMIT)
     ∧ (qr.max_cpus_pj = INFINITE) ∧ (qp.max_cpus_pj ≠ INFINITE) then
    let qr1 := { qr with max_cpus_pj := qp.max_cpus_pj }
    if (cpu_cnt : Int) > qp.max_cpus_pj then
      (qr1, some Reason.WAIT_QOS_MAX_CPUS_PER_JOB)
    else (qr1, none)
  else (qr, none)

/-- min_cpus_pj block of _qos_job_runnable_post_select. -/
def ps_min_cpus_pj (j : JobR) (qp : QosRec) (cpu_cnt : Nat) (qr : QosRec) :
    QosRec × Option Reason :=
  if (j.ls.min_tres.getD TRES_ARRAY_CPU 0 ≠ ADMIN_SET_LIMIT)
     ∧ (qr.min_cpus_pj = INFINITE) ∧ (qp.min_cpus_pj ≠ INFINITE) then
    let qr1 := { qr with min_cpus_pj := qp.min_cpus_pj }
    if (cpu_cnt ≠ 0) ∧ ((cpu_cnt : Int) < qp.min_cpus_pj) then
      (qr1, some Reason.WAIT_QOS_MIN_CPUS)
    else (qr1, none)
  else (qr, none)

/-- max_cpus_pu block of _qos_job_runnable_post_select, reading the
per-user record ul. -/
def ps_max_cpus_pu (j : JobR) (qp : QosRec) (ul : UsedLimits)
    (cpu_cnt : Nat) (qr : QosRec) : QosRec × Option Reason :=
  if (j.ls.min_tres.getD TRES_ARRAY_CPU 0 ≠ ADMIN_SET_LIMIT)
     ∧ (qr.max_cpus_pu = INFINITE) ∧ (qp.max_cpus_pu ≠ INFINITE) then
    let qr1 := { qr with max_cpus_pu := qp.max_cpus_pu }
    if (cpu_cnt : Int) > qp.max_cpus_pu then
      (qr1, some Reason.WAIT_QOS_MAX_CPU_PER_USER)
    else if ul.cpus + (cpu_cnt : Int) > qp.max_cpus_pu then
      (qr1, some Reason.WAIT_QOS_MAX_CPU_PER_USER)
    else (qr1, none)
  else (qr, none)

/-- max_nodes_pj block of _qos_job_runnable_post_select. -/
def ps_max_nodes_pj (j : JobR) (qp : QosRec) (node_cnt : Nat) (qr : QosRec) :
    QosRec × Option Reason :=
  if (j.ls.min_nodes ≠ ADMIN_SET_LIMIT)
     ∧ (qr.max_nodes_pj = INFINITE) ∧ (qp.max_nodes_pj ≠ INFINITE) then
    let qr1 := { qr with max_nodes_pj := qp.max_nodes_pj }
    if (node_cnt : Int) > qp.max_nodes_pj then
      (qr1, some Reason.WAIT_QOS_MAX_NODE_PER_JOB)
    else (qr1, none)
  else (qr, none)

/-- max_nodes_pu block of _qos_job_runnable_post_select, reading the
per-user record ul. -/
def ps_max_nodes_pu (j : JobR) (qp : QosRec) (ul : UsedLimits)
    (node_cnt : Nat) (qr : QosRec) : QosRec × Option Reason :=
  if (j.ls.min_nodes ≠ ADMIN_SET_LIMIT)
     ∧ (qr.max_nodes_pu = INFINITE) ∧ (qp.max_nodes_pu ≠ INFINITE) then
    let qr1 := { qr with max_nodes_pu := qp.max_nodes_pu }
    if (node_cnt : Int) > qp.max_nodes_pu then
      (qr1, some Reason.WAIT_QOS_MAX_NODE_PER_USER)
    else if ul.nodes + (node_cnt : Int) > qp.max_nodes_pu then
      (qr1, some Reason.WAIT_QOS_MAX_NODE_PER_USER)
    else (qr1, none)
  else (qr, none)

/-- The check blocks of _qos_job_runnable_post_select for one QOS, in
source order. -/
def qos_post_blocks (safe : Bool) (j : JobR) (qp : QosRec)
    (node_cnt cpu_cnt : Nat) (jm job_ctl : Int) (adminMem : Bool)
    (ul : UsedLimits) : List (QosRec → QosRec × Option Reason) :=
  let usage_mins := qp.usage.usage_raw / 60
  let cpu_run_mins := qp.usage.grp_used_cpu_run_secs / 60
  [ps_grp_cpu_mins safe qp usage_mins cpu_run_mins job_ctl,
   ps_grp_cpus j qp cpu_cnt,
   ps_grp_mem adminMem qp jm,
   ps_grp_cpu_run_mins qp cpu_run_mins job_ctl,
   ps_grp_nodes j qp node_cnt,
   ps_max_cpu_mins_pj j qp job_ctl,
   ps_max_cpus_pj j qp cpu_cnt,
   ps_min_cpus_pj j qp cpu_cnt,
   ps_max_cpus_pu j qp ul cpu_cnt,
   ps_max_nodes_pj j qp node_cnt,
   ps_max_nodes_pu j qp ul node_cnt]

/-- Mirrors _qos_job_runnable_post_select for one (non-null) QOS.  The
second component of the result is the user_limit_list of the QOS after
the call: the local scratch record allocated when the user has no entry
is freed before returning and never inserted. -/
def qos_job_runnable_post_select (safe : Bool) (j : JobR) (qp : QosRec)
    (node_cnt cpu_cnt : Nat) (jm job_ctl : Int) (adminMem : Bool)
    (s : QosRec × Option Reason) :
    (QosRec × Option Reason) × List UsedLimits :=
  let ul := (find_used_limits qp.usage.user_limit_list j.user_id).getD
              (zeroUsed j.user_id)
  (qrun (qos_post_blocks safe j qp node_cnt cpu_cnt jm job_ctl adminMem ul) s,
   qp.usage.user_limit_list)

/-- First failing entry of a list of optional reasons. -/
def firstSome : List (Option Reason) → Option Reason
  | [] => none
  | some r :: _ => some r
  | none :: rest => firstSome rest

/-- grp_cpu_mins (GrpCPUMins via the TRES string) check of the association
loop of acct_policy_job_runnable_post_select, with the safe-limits
variant. -/
def pa_grp_cpu_mins (safe : Bool) (qr : QosRec) (a : AssocRec)
    (usage_mins cpu_run_mins job_ctl : Int) : Option Reason :=
  if (qr.grp_cpu_mins = INFINITE) ∧ (a.grp_tres_mins_cpu ≠ INFINITE) then
    if usage_mins ≥ a.grp_tres_mins_cpu then
      some Reason.WAIT_ASSOC_GRP_CPU_MIN
    else if safe ∧ (job_ctl + cpu_run_mins > a.grp_tres_mins_cpu - usage_mins) then
      some Reason.WAIT_ASSOC_GRP_CPU_MIN
    else none
  else none

/-- grp_cpus check of the association loop of
acct_policy_job_runnable_post_select. -/
def pa_grp_cpus (j : JobR) (qr : QosRec) (a : AssocRec) (cpu_cnt : Nat) :
    Option Reason :=
  if (j.ls.min_tres.getD TRES_ARRAY_CPU 0 ≠ ADMIN_SET_LIMIT)
     ∧ (qr.grp_cpus = INFINITE) ∧ (a.grp_tres_cpu ≠ INFINITE) then
    if (cpu_cnt : Int) > a.grp_tres_cpu then
      some Reason.WAIT_ASSOC_GRP_CPU
    else if a.usage.grp_used_cpus + (cpu_cnt : Int) > a.grp_tres_cpu then
      some Reason.WAIT_ASSOC_GRP_CPU
    else none
  else none

/-- grp_mem check of the association loop of
acct_policy_job_runnable_post_select. -/
def pa_grp_mem (adminMem : Bool) (qr : QosRec) (a : AssocRec) (jm : Int) :
    Option Reason :=
  if (¬ adminMem) ∧ (qr.grp_mem = INFINITE) ∧ (a.grp_mem ≠ INFINITE) then
    if jm > a.grp_mem then
      some Reason.WAIT_ASSOC_GRP_MEMORY
    else if a.usage.grp_used_mem + jm > a.grp_mem then
      some Reason.WAIT_ASSOC_GRP_MEMORY
    else none
  else none

/-- grp_cpu_run_mins check of the association loop of
acct_policy_job_runnable_post_select. -/
def pa_grp_cpu_run_mins (qr : QosRec) (a : AssocRec)
    (cpu_run_mins job_ctl : Int) : Option Reason :=
  if (qr.grp_cpu_run_mins = INFINITE) ∧ (a.grp_tres_run_mins_cpu ≠ INFINITE) then
    if cpu_run_mins + job_ctl > a.grp_tres_run_mins_cpu then
      some Reason.WAIT_ASSOC_GRP_CPU_RUN_MIN
    else none
  else none

/-- grp_nodes check of the association loop of
acct_policy_job_runnable_post_select. -/
def pa_grp_nodes (j : JobR) (qr : QosRec) (a : AssocRec) (node_cnt : Nat) :
    Option Reason :=
  if (j.ls.min_nodes ≠ ADMIN_SET_LIMIT)
     ∧ (qr.grp_nodes = INFINITE) ∧ (a.grp_nodes ≠ INFINITE) then
    if (node_cnt : Int) > a.grp_nodes then
      some Reason.WAIT_ASSOC_GRP_NODES
    else if a.usage.grp_used_nodes + (node_cnt : Int) > a.grp_nodes then
      some Reason.WAIT_ASSOC_GRP_NODES
    else none
  else none

/-- max_cpu_mins_pj check of the association loop of
acct_policy_job_runnable_post_select (first chain node only). -/
def pa_max_cpu_mins_pj (j : JobR) (qr : QosRec) (a : AssocRec)
    (job_ctl : Int) : Option Reason :=
  if (qr.max_cpu_mins_pj = INFINITE) ∧ (a.max_tres_mins_pj_cpu ≠ INFINITE) then
    if (j.time_limit ≠ NO_VAL) ∧ (job_ctl > a.max_tres_mins_pj_cpu) then
      some Reason.WAIT_ASSOC_MAX_CPU_MINS_PER_JOB
    else none
  else none

/-- max_cpus_pj check of the association loop of
acct_policy_job_runnable_post_select (first chain node only). -/
def pa_max_cpus_pj (qr : QosRec) (a : AssocRec) (cpu_cnt : Nat) :
    Option Reason :=
  if (qr.max_cpus_pj = INFINITE) ∧ (a.max_tres_pj_cpu ≠ INFINITE) then
    if (cpu_cnt : Int) > a.max_tres_pj_cpu then
      some Reason.WAIT_ASSOC_MAX_CPUS_PER_JOB
    else none
  else none

/-- max_nodes_pj check of the association loop of
acct_policy_job_runnable_post_select (first chain node only). -/
def pa_max_nodes_pj (qr : QosRec) (a : AssocRec) (node_cnt : Nat) :
    Option Reason :=
  if (qr.max_nodes_pj = INFINITE) ∧ (a.max_nodes_pj ≠ INFINITE) then
    if (node_cnt : Int) > a.max_nodes_pj then
      some Reason.WAIT_ASSOC_MAX_NODE_PER_JOB
    else none
  else none

/-- One association body of the post-select chain loop: the group checks,
and for the first chain node also the per-job checks. -/
def post_assoc_checks (safe : Bool) (j : JobR) (qr : QosRec)
    (node_cnt cpu_cnt : Nat) (jm job_ctl : Int) (adminMem : Bool)
    (par : Bool) (a : AssocRec) : Option Reason :=
  let usage_mins := a.usage.usage_raw / 60
  let cpu_run_mins := a.usage.grp_used_cpu_run_secs / 60
  firstSome
    ([pa_grp_cpu_mins safe qr a usage_mins cpu_run_mins job_ctl,
      pa_grp_cpus j qr a cpu_cnt,
      pa_grp_mem adminMem qr a jm,
      pa_grp_cpu_run_mins qr a cpu_run_mins job_ctl,
      pa_grp_nodes j qr a node_cnt]
     ++ (if par then []
         else [pa_max_cpu_mins_pj j qr a job_ctl,
               pa_max_cpus_pj qr a cpu_cnt,
               pa_max_nodes_pj qr a node_cnt]))

/-- The association-chain loop of acct_policy_job_runnable_post_select. -/
def post_assoc_loop (safe : Bool) (j : JobR) (qr : QosRec)
    (node_cnt cpu_cnt : Nat) (jm job_ctl : Int) (adminMem : Bool) :
    List AssocRec → Bool → Option Reason
  | [], _ => none
  | a :: rest, par =>
    match post_assoc_checks safe j qr node_cnt cpu_cnt jm job_ctl adminMem par a with
    | some r => some r
    | none => post_assoc_loop safe j qr node_cnt cpu_cnt jm job_ctl adminMem rest true

/-- One QOS pass of acct_policy_job_runnable_post_select: a null QOS
pointer leaves the state unchanged, otherwise the QOS checks run on it.
When the incoming state already carries a failure the blocks do not run
and the state passes through unchanged, which mirrors the short-circuit
`if (qos_ptr && !(rc = ...))` of the caller. -/
def post_stage (safe : Bool) (j : JobR) (qo : Option QosRec)
    (node_cnt cpu_cnt : Nat) (jm job_ctl : Int) (adminMem : Bool)
    (s : QosRec × Option Reason) : QosRec × Option Reason :=
  match qo with
  | none => s
  | some qp =>
      (qos_job_runnable_post_select safe j qp node_cnt cpu_cnt jm job_ctl
        adminMem s).1

/-- Core of acct_policy_job_runnable_post_select once the ordered QOS pair
and the derived quantities are at hand. -/
def post_core (safe : Bool) (j : JobR) (q1o q2o : Option QosRec)
    (chain : List AssocRec) (node_cnt cpu_cnt : Nat) (jm job_ctl : Int)
    (adminMem : Bool) (r0 : Reason) : Bool × Reason :=
  match (post_stage safe j q1o node_cnt cpu_cnt jm job_ctl adminMem
          (initQosRec, none)).2 with
  | some r => (false, r)
  | none =>
    let s2 := post_stage safe j q2o node_cnt cpu_cnt jm job_ctl adminMem
                (post_stage safe j q1o node_cnt cpu_cnt jm job_ctl adminMem
                  (initQosRec, none))
    match s2.2 with
    | some r => (false, r)
    | none =>
      match post_assoc_loop safe j s2.1 node_cnt cpu_cnt jm job_ctl adminMem
              chain false with
      | some r => (false, r)
      | none => (true, r0)

/-- Body of acct_policy_job_runnable_post_select after the enforcement
guards: state-reason clearing, job_memory and cpu-time computation, then
the QOS pair and the association chain. -/
def post_select_body (safe : Bool) (j : JobR)
    (jobQos partQos : Option QosRec) (chain : List AssocRec)
    (node_cnt cpu_cnt pn_min_memory : Nat) : Bool × Reason :=
  let r0 := if acct_policy_job_runnable_state j.state_reason
            then j.state_reason else Reason.WAIT_NO_REASON
  let job_ctl := j.time_limit * (cpu_cnt : Int)
  let adminMem : Bool :=
    decide ((pn_min_memory ≠ 0)
      ∧ ((j.ls.max_tres.getD TRES_ARRAY_MEM 0 = ADMIN_SET_LIMIT)
         ∨ (j.ls.min_tres.getD TRES_ARRAY_CPU 0 = ADMIN_SET_LIMIT)))
  let jm := job_memory_calc pn_min_memory cpu_cnt node_cnt
  let qpair := set_qos_order jobQos partQos
  post_core safe j qpair.1 qpair.2 chain node_cnt cpu_cnt jm job_ctl adminMem r0

/-- Mirrors acct_policy_job_runnable_post_select: enforcement guards,
then the body.  Returns the rc and the job state reason after the call. -/
def acct_policy_job_runnable_post_select (e : EnforceFlags) (j : JobR)
    (jobQos partQos : Option QosRec) (chain : List AssocRec)
    (node_cnt cpu_cnt pn_min_memory : Nat) : Bool × Reason :=
  if ¬ (e.limits ∨ e.safe ∨ e.associations) then (true, j.state_reason)
  else if ¬ e.limits then (true, j.state_reason)
  else post_select_body e.safe j jobQos partQos chain node_cnt cpu_cnt
         pn_min_memory

/-- grp_jobs block of _qos_job_runnable_pre_select. -/
def pre_grp_jobs (qp : QosRec) (qr : QosRec) : QosRec × Option Reason :=
  if (qr.grp_jobs = INFINITE) ∧ (qp.grp_jobs ≠ INFINITE) then
    let qr1 := { qr with grp_jobs := qp.grp_jobs }
    if qp.usage.grp_used_jobs ≥ qp.grp_jobs then
      (qr1, some Reason.WAIT_QOS_GRP_JOB)
    else (qr1, none)
  else (qr, none)

/-- grp_wall block of _qos_job_runnable_pre_select. -/
def pre_grp_wall (qp : QosRec) (wall_mins : Int) (qr : QosRec) :
    QosRec × Option Reason :=
  if (qr.grp_wall = INFINITE) ∧ (qp.grp_wall ≠ INFINITE) then
    let qr1 := { qr with grp_wall := qp.grp_wall }
    if wall_mins ≥ qp.grp_wall then
      (qr1, some Reason.WAIT_QOS_GRP_WALL)
    else (qr1, none)
  else (qr, none)

/-- max_jobs_pu block of _qos_job_runnable_pre_select, reading the
per-user record ul. -/
def pre_max_jobs_pu (qp : QosRec) (ul : UsedLimits) (qr : QosRec) :
    QosRec × Option Reason :=
  if (qr.max_jobs_pu = INFINITE) ∧ (qp.max_jobs_pu ≠ INFINITE) then
    let qr1 := { qr with max_jobs_pu := qp.max_jobs_pu }
    if ul.jobs ≥ qp.max_jobs_pu then
      (qr1, some Reason.WAIT_QOS_MAX_JOB_PER_USER)
    else (qr1, none)
  else (qr, none)

/-- max_wall_pj block of _qos_job_runnable_pre_select. -/
def pre_max_wall_pj (j : JobR) (qp : QosRec) (qr : QosRec) :
    QosRec × Option Reason :=
  if (j.ls.time ≠ ADMIN_SET_LIMIT)
     ∧ (qr.max_wall_pj = INFINITE) ∧ (qp.max_wall_pj ≠ INFINITE) then
    let qr1 := { qr with max_wall_pj := qp.max_wall_pj }
    if (j.time_limit ≠ NO_VAL) ∧ (j.time_limit > qp.max_wall_pj) then
      (qr1, some Reason.WAIT_QOS_MAX_WALL_PER_JOB)
    else (qr1, none)
  else (qr, none)

/-- Mirrors _qos_job_runnable_pre_select for one (non-null) QOS.  The
second component of the result is the user_limit_list of the QOS after
the call: the local scratch record allocated when the user has no entry
is freed before returning and never inserted. -/
def qos_job_runnable_pre_select (j : JobR) (qp : QosRec) (qr : QosRec) :
    (QosRec × Option Reason) × List UsedLimits :=
  let wall_mins := qp.usage.grp_used_wall / 60
  let ul := (find_used_limits qp.usage.user_limit_list j.user_id).getD
              (zeroUsed j.user_id)
  (qrun [pre_grp_jobs qp, pre_grp_wall qp wall_mins,
         pre_max_jobs_pu qp ul, pre_max_wall_pj j qp] (qr, none),
   qp.usage.user_limit_list)

/-- grp_cpu_mins block of _qos_job_time_out. -/
def qt_grp_cpu_mins (qp : QosRec) (usage_mins : Int) (qr : QosRec) :
    QosRec × Option Reason :=
  if (qr.grp_cpu_mins = INFINITE) ∧ (qp.grp_cpu_mins ≠ INFINITE) then
    let qr1 := { qr with grp_cpu_mins := qp.grp_cpu_mins }
    if usage_mins ≥ qp.grp_cpu_mins then
      (qr1, some Reason.FAIL_TIMEOUT)
    else (qr1, none)
  else (qr, none)

/-- grp_wall block of _qos_job_time_out. -/
def qt_grp_wall (qp : QosRec) (wall_mins : Int) (qr : QosRec) :
    QosRec × Option Reason :=
  if (qr.grp_wall = INFINITE) ∧ (qp.grp_wall ≠ INFINITE) then
    let qr1 := { qr with grp_wall := qp.grp_wall }
    if wall_mins ≥ qp.grp_wall then
      (qr1, some Reason.FAIL_TIMEOUT)
    else (qr1, none)
  else (qr, none)

/-- max_cpu_mins_pj block of _qos_job_time_out. -/
def qt_max_cpu_mins_pj (qp : QosRec) (job_cpu_usage_mins : Int)
    (qr : QosRec) : QosRec × Option Reason :=
  if (qr.max_cpu_mins_pj = INFINITE) ∧ (qp.max_cpu_mins_pj ≠ INFINITE) then
    let qr1 := { qr with max_cpu_mins_pj := qp.max_cpu_mins_pj }
    if job_cpu_usage_mins ≥ qp.max_cpu_mins_pj then
      (qr1, some Reason.FAIL_TIMEOUT)
    else (qr1, none)
  else (qr, none)

/-- Mirrors _qos_job_time_out for one (non-null) QOS. -/
def qos_job_time_out (qp : QosRec) (job_cpu_usage_mins : Int)
    (qr : QosRec) : QosRec × Option Reason :=
  let usage_mins := qp.usage.usage_raw / 60
  let wall_mins := qp.usage.grp_used_wall / 60
  qrun [qt_grp_cpu_mins qp usage_mins, qt_grp_wall qp wall_mins,
        qt_max_cpu_mins_pj qp job_cpu_usage_mins] (qr, none)

/-- Association loop of acct_policy_job_time_out: the three group and
per-job minute/wall checks per association, stopping before the root
(the `if (assoc == assoc_mgr_root_assoc) break;` after stepping to the
parent). -/
def timeout_assoc_loop (qr : QosRec) (job_cpu_usage_mins : Int) :
    List AssocRec → Option Reason
  | [] => none
  | a :: rest =>
    let usage_mins := a.usage.usage_raw / 60
    let wall_mins := a.usage.grp_used_wall / 60
    if (qr.grp_cpu_mins = INFINITE) ∧ (a.grp_tres_mins_cpu ≠ INFINITE)
       ∧ (usage_mins ≥ a.grp_tres_mins_cpu) then
      some Reason.FAIL_TIMEOUT
    else if (qr.grp_wall = INFINITE) ∧ (a.grp_wall ≠ INFINITE)
            ∧ (wall_mins ≥ a.grp_wall) then
      some Reason.FAIL_TIMEOUT
    else if (qr.max_cpu_mins_pj = INFINITE) ∧ (a.max_tres_mins_pj_cpu ≠ INFINITE)
            ∧ (job_cpu_usage_mins ≥ a.max_tres_mins_pj_cpu) then
      some Reason.FAIL_TIMEOUT
    else
      match rest with
      | [] => none
      | b :: _ => if b.root then none
                  else timeout_assoc_loop qr job_cpu_usage_mins rest

/-- The state reason produced by the body of acct_policy_job_time_out
after the guards: the first tripped limit writes FAIL_TIMEOUT, otherwise
the job state reason is left as it was. -/
def timeout_result (j : JobR) (jobQos partQos : Option QosRec)
    (chain : List AssocRec) (now : Int) : Reason :=
  let qpair := set_qos_order jobQos partQos
  let job_cpu_usage_mins :=
    (((now - j.start_time) - j.tot_sus_time) / 60) * (j.total_cpus : Int)
  let s1 := match qpair.1 with
    | none => (initQosRec, (none : Option Reason))
    | some qp => qos_job_time_out qp job_cpu_usage_mins initQosRec
  match s1.2 with
  | some r => r
  | none =>
    let s2 := match qpair.2 with
      | none => s1
      | some qp => qos_job_time_out qp job_cpu_usage_mins s1.1
    match s2.2 with
    | some r => r
    | none =>
      match timeout_assoc_loop s2.1 job_cpu_usage_mins chain with
      | some r => r
      | none => j.state_reason

/-- Mirrors acct_policy_job_time_out: disabled unless
ACCOUNTING_ENFORCE_LIMITS is set and ACCOUNTING_ENFORCE_SAFE is clear;
otherwise evaluates the QOS pair and the association chain and returns
true exactly when the job state reason ends up FAIL_TIMEOUT. -/
def acct_policy_job_time_out (e : EnforceFlags) (j : JobR)
    (jobQos partQos : Option QosRec) (chain : List AssocRec) (now : Int) :
    Bool × Reason :=
  if (¬ e.limits) ∨ e.safe then (false, j.state_reason)
  else
    let r1 := timeout_result j jobQos partQos chain now
    (decide (r1 = Reason.FAIL_TIMEOUT), r1)

/-- The merged qos_rec of acct_policy_get_max_nodes: a copy of the primary
QOS whose max_nodes_pj, max_nodes_pu and grp_nodes fields are filled from
the secondary QOS only where the primary leaves them INFINITE. -/
def get_max_nodes_qos_rec (q1 : QosRec) (q2 : Option QosRec) : QosRec :=
  match q2 with
  | none => q1
  | some qp2 =>
    let a := if q1.max_nodes_pj = INFINITE
             then { q1 with max_nodes_pj := qp2.max_nodes_pj } else q1
    let b := if a.max_nodes_pu = INFINITE
             then { a with max_nodes_pu := qp2.max_nodes_pu } else a
    if b.grp_nodes = INFINITE
    then { b with grp_nodes := qp2.grp_nodes } else b

/-- Association loop of acct_policy_get_max_nodes: grp_nodes may tighten
the cap from any level, max_nodes_pj only from the first level; the loop
stops as soon as a group limit tightened the result. -/
def gmn_assoc_loop (qos_absent_or_grp_inf : Bool) (qos_max_p_limit : Int) :
    List AssocRec → Bool → Int → Option Reason → Int × Option Reason
  | [], _, m, w => (m, w)
  | a :: rest, par, m, w =>
    let p1 : Int × Option Reason × Bool :=
      if qos_absent_or_grp_inf ∧ (a.grp_nodes ≠ INFINITE) ∧ (a.grp_nodes < m)
      then (a.grp_nodes, some Reason.WAIT_ASSOC_GRP_NODES, true)
      else (m, w, false)
    let p2 : Int × Option Reason :=
      if (¬ par) ∧ (qos_max_p_limit = INFINITE) ∧ (a.max_nodes_pj ≠ INFINITE)
         ∧ (a.max_nodes_pj < p1.1)
      then (a.max_nodes_pj, some Reason.WAIT_ASSOC_MAX_NODE_PER_JOB)
      else (p1.1, p1.2.1)
    if p1.2.2 then (p2.1, p2.2)
    else gmn_assoc_loop qos_absent_or_grp_inf qos_max_p_limit rest true p2.1 p2.2

/-- Mirrors acct_policy_get_max_nodes: the tightest node cap reachable by
the job and the wait reason that would fire at that cap. -/
def acct_policy_get_max_nodes (e : EnforceFlags) (jobQos partQos : Option QosRec)
    (chain : List AssocRec) : Int × Option Reason :=
  if ¬ e.limits then (INFINITE, none)
  else
    let qpair := set_qos_order jobQos partQos
    let st : Int × Int × Option Reason × Bool :=
      match qpair.1 with
      | none => (INFINITE, INFINITE, none, true)
      | some qp1 =>
        let qr := get_max_nodes_qos_rec qp1 qpair.2
        let p1 : Int × Option Reason :=
          if qr.max_nodes_pj < qr.max_nodes_pu then
            (qr.max_nodes_pj, some Reason.WAIT_QOS_MAX_NODE_PER_JOB)
          else if qr.max_nodes_pu ≠ INFINITE then
            (qr.max_nodes_pu, some Reason.WAIT_QOS_MAX_NODE_PER_USER)
          else (INFINITE, none)
        let qmax := p1.1
        if qr.grp_nodes < p1.1 then
          (qr.grp_nodes, qmax, some Reason.WAIT_QOS_GRP_NODES,
           decide (qr.grp_nodes = INFINITE))
        else (p1.1, qmax, p1.2, decide (qr.grp_nodes = INFINITE))
    gmn_assoc_loop st.2.2.2 st.2.1 chain false st.1 st.2.2.1

/-- Modelled from the spec: the QOS ordering rule as the specification
words it.  No QOS anywhere gives the empty pair; exactly one present
gives (that, empty); with both present the job QOS leads iff it carries
PART_QOS; a pair resolving to the same object drops the secondary. -/
def set_qos_order_claim (jobQos partQos : Option QosRec) :
    Option QosRec × Option QosRec :=
  match jobQos, partQos with
  | none, none => (none, none)
  | some jq, none => (some jq, none)
  | none, some pq => (some pq, none)
  | some jq, some pq =>
    let pair := if jq.flag_part_qos then (jq, pq) else (pq, jq)
    if pair.1.id = pair.2.id then (some pair.1, none)
    else (some pair.1, some pair.2)

/-- Modelled from the spec: field-wise minimum of two limit values with
INF acting as the identity of the minimum. -/
def qos_merge_fieldwise_min_claim (x y : Int) : Int :=
  if x = INFINITE then y else if y = INFINITE then x else min x y

/-- Modelled from the spec: the max-cpus-per-job block of
_qos_policy_validate with the `|=` of its guard read as `!=`, the
interpretation the specification states.  Arguments are the admin slot of
the cpu limit, the scratch and QOS max_cpus_pj values and the requested
cpu count. -/
def qos_validate_max_cpus_pj_claim (strict update_call : Bool)
    (admin_cpu out_max qos_max req : Int) : Option Reason :=
  if (admin_cpu = ADMIN_SET_LIMIT) ∨ (out_max ≠ INFINITE)
     ∨ (qos_max = INFINITE) ∨ (update_call ∧ req = NO_VAL) then
    none
  else if strict ∧ (req ≠ NO_VAL) then
    if req > qos_max then some Reason.WAIT_QOS_MAX_CPUS_PER_JOB else none
  else none

/-- An all-zero limit-set record (nothing user- or admin-set). -/
def lsZero : LimitSet := ⟨0, 0, 0, [0, 0, 0, 0], [0, 0, 0, 0]⟩

/-- An association whose every limit is INFINITE (the S2 root). -/
def assocAllInf : AssocRec :=
  ⟨1, true, [INFINITE, INFINITE, INFINITE, INFINITE], INFINITE, INFINITE,
   INFINITE, INFINITE, INFINITE, INFINITE, INFINITE, INFINITE,
   [INFINITE, INFINITE, INFINITE, INFINITE], INFINITE, INFINITE, INFINITE,
   INFINITE, INFINITE, INFINITE, emptyAssocUsage⟩

/-- A QOS with every limit INFINITE except the stated field values. -/
def qosAllInf (id : Nat) : QosRec :=
  ⟨id, false, false, INFINITE, INFINITE, INFINITE, INFINITE, INFINITE,
   INFINITE, INFINITE, INFINITE, INFINITE, INFINITE, INFINITE, INFINITE,
   INFINITE, INFINITE, INFINITE, INFINITE, INFINITE, emptyQosUsage⟩

/-- The QOS of the C2 failing input: max_cpus_pj = 50, everything else
unlimited. -/
def qosC2 : QosRec := { qosAllInf 1 with max_cpus_pj := 50 }

/-- The job descriptor of the C2 failing input: 100 requested cpus. -/
def descC2 : JobDesc := ⟨0, 60, NO_VAL, NO_VAL, [100, 0, 0, 0], 1⟩

/-- A partition with no max time and the C2 QOS attached. -/
def partC2 : Partition := ⟨INFINITE, some qosC2⟩

/-- The association of the C6 scenario: max_wall_pj = 45 is its only
finite limit. -/
def assocC6 : AssocRec := { assocAllInf with max_wall_pj := 45 }

/-- The partition of the C6 scenario: max_time = 30, no QOS. -/
def partC6 : Partition := ⟨30, none⟩

/-- The job descriptor of the C6 scenario: no time limit requested,
min_nodes = 2. -/
def descC6 : JobDesc := ⟨0, NO_VAL, 2, NO_VAL, [NO_VAL, 0, 0, 0], 1⟩

/-- The QOS of the S4 safe-limits scenario: grp_cpu_mins = 1000 with
900 cpu-minutes (54000 seconds) of raw usage and no running seconds. -/
def qosS4 : QosRec :=
  { qosAllInf 1 with grp_cpu_mins := 1000,
                     usage := { emptyQosUsage with usage_raw := 54000 } }

/-- The job of the S4 scenario: time_limit 20 over 10 cpus. -/
def jobS4 : JobR := ⟨0, 20, 10, 0, 0, Reason.WAIT_NO_REASON, lsZero⟩

/-- The job used by the lifecycle scenarios: 2 cpus on 1 node for
3 minutes, no memory request, uid 7. -/
def jobS5 : Job := ⟨7, 2, 1, 3, 0⟩

/-- The all-zero world of the lifecycle scenarios: one QOS with an empty
per-user list and a single (root) association. -/
def worldS5 : World := ⟨some emptyQosUsage, none, [emptyAssocUsage], 0⟩

/-- A world for exercising the association walk: a two-element parent
chain (job association first, root last), no QOS. -/
def worldC4 : World := ⟨none, none, [emptyAssocUsage, emptyAssocUsage], 0⟩

/-- Relation between two check blocks: whenever the first passes, the
second behaves identically (used to compare the safe and non-safe runs). -/
def blockRel (f g : QosRec → QosRec × Option Reason) : Prop :=
  ∀ q, (f q).2 = none → g q = f q

/-- All counters of a per-user record are non-negative. -/
def usedNonneg (u : UsedLimits) : Prop :=
  0 ≤ u.jobs ∧ 0 ≤ u.cpus ∧ 0 ≤ u.nodes ∧ 0 ≤ u.submit_jobs

/-- All counters of a QOS usage block are non-negative, including every
entry of the per-user list. -/
def qosUsageNonneg (q : QosUsage) : Prop :=
  0 ≤ q.grp_used_jobs ∧ 0 ≤ q.grp_used_submit_jobs ∧ 0 ≤ q.grp_used_cpus
  ∧ 0 ≤ q.grp_used_mem ∧ 0 ≤ q.grp_used_nodes ∧ 0 ≤ q.grp_used_cpu_run_secs
  ∧ ∀ u ∈ q.user_limit_list, usedNonneg u

/-- Non-negativity of an optional QOS usage block. -/
def optQosNonneg : Option QosUsage → Prop
  | none => True
  | some q => qosUsageNonneg q

/-- All counters of an association usage block are non-negative. -/
def assocUsageNonneg (a : AssocUsage) : Prop :=
  0 ≤ a.used_jobs ∧ 0 ≤ a.used_submit_jobs ∧ 0 ≤ a.grp_used_cpus
  ∧ 0 ≤ a.grp_used_mem ∧ 0 ≤ a.grp_used_nodes ∧ 0 ≤ a.grp_used_cpu_run_secs

/-- Every usage counter of the world is non-negative. -/
def worldNonneg (w : World) : Prop :=
  optQosNonneg w.qos1 ∧ optQosNonneg w.qos2 ∧ ∀ a ∈ w.chain, assocUsageNonneg a

/-- Number of occurrences of an event in a sequence. -/
def countEv (t : Ev) : List Ev → Nat
  | [] => 0
  | e :: rest => (if e = t then 1 else 0) + countEv t rest

/-- A lifecycle sequence is prefix-sound starting from the given event
counts: every REM_SUBMIT follows a yet-unmatched ADD_SUBMIT and every
JOB_FINI follows a yet-unmatched JOB_BEGIN. -/
def prefixOk : Nat → Nat → Nat → Nat → List Ev → Bool
  | _, _, _, _, [] => true
  | a, r, b, f, Ev.addSubmit :: t => prefixOk (a + 1) r b f t
  | a, r, b, f, Ev.remSubmit :: t => decide (r < a) && prefixOk a (r + 1) b f t
  | a, r, b, f, Ev.jobBegin :: t => prefixOk a r (b + 1) f t
  | a, r, b, f, Ev.jobFini :: t => decide (f < b) && prefixOk a r b (f + 1) t

/-- Exact shape of a QOS usage block after a counted number of adds,
removes, begins and finis of the same job applied from q0. -/
structure QShape (q0 : QosUsage) (j : Job) (a r b f : Nat) (q : QosUsage) : Prop where
  subs : q.grp_used_submit_jobs = q0.grp_used_submit_jobs + (a : Int) - (r : Int)
  jobs : q.grp_used_jobs = q0.grp_used_jobs + (b : Int) - (f : Int)
  cpus : q.grp_used_cpus = q0.grp_used_cpus + ((b : Int) - (f : Int)) * (j.total_cpus : Int)
  mem : q.grp_used_mem = q0.grp_used_mem + ((b : Int) - (f : Int)) * adj_job_memory j
  nodes : q.grp_used_nodes = q0.grp_used_nodes + ((b : Int) - (f : Int)) * (j.node_cnt : Int)
  runsecs : q.grp_used_cpu_run_secs
    = q0.grp_used_cpu_run_secs + (b : Int) * ((j.total_cpus * j.time_limit * 60 : Nat) : Int)
  wall : q.grp_used_wall = q0.grp_used_wall
  raw : q.usage_raw = q0.usage_raw
  usubs : (userView q.user_limit_list j.user_id).submit_jobs
    = (userView q0.user_limit_list j.user_id).submit_jobs + (a : Int) - (r : Int)
  ujobs : (userView q.user_limit_list j.user_id).jobs
    = (userView q0.user_limit_list j.user_id).jobs + (b : Int) - (f : Int)
  ucpus : (userView q.user_limit_list j.user_id).cpus
    = (userView q0.user_limit_list j.user_id).cpus + ((b : Int) - (f : Int)) * (j.total_cpus : Int)
  unodes : (userView q.user_limit_list j.user_id).nodes
    = (userView q0.user_limit_list j.user_id).nodes + ((b : Int) - (f : Int)) * (j.node_cnt : Int)
  uother : ∀ v, v ≠ j.user_id →
    find_used_limits q.user_limit_list v = find_used_limits q0.user_limit_list v

/-- Exact shape of an association usage block after a counted number of
adds, removes, begins and finis of the same job applied from a0. -/
structure AShape (a0 : AssocUsage) (j : Job) (a r b f : Nat) (x : AssocUsage) : Prop where
  subs : x.used_submit_jobs = a0.used_submit_jobs + (a : Int) - (r : Int)
  jobs : x.used_jobs = a0.used_jobs + (b : Int) - (f : Int)
  cpus : x.grp_used_cpus = a0.grp_used_cpus + ((b : Int) - (f : Int)) * (j.total_cpus : Int)
  mem : x.grp_used_mem = a0.grp_used_mem + ((b : Int) - (f : Int)) * adj_job_memory j
  nodes : x.grp_used_nodes = a0.grp_used_nodes + ((b : Int) - (f : Int)) * (j.node_cnt : Int)
  runsecs : x.grp_used_cpu_run_secs
    = a0.grp_used_cpu_run_secs + (b : Int) * ((j.total_cpus * j.time_limit * 60 : Nat) : Int)
  wall : x.grp_used_wall = a0.grp_used_wall
  raw : x.usage_raw = a0.usage_raw

/-- Shape of an optional QOS usage slot. -/
def optQShape (q0? : Option QosUsage) (j : Job) (a r b f : Nat) :
    Option QosUsage → Prop
  | none => q0? = none
  | some q => ∃ q0, q0? = some q0 ∧ QShape q0 j a r b f q

/-- Shape of the whole world after a counted number of lifecycle events
of the same job applied from w0. -/
def WShape (w0 : World) (j : Job) (a r b f : Nat) (w : World) : Prop :=
  optQShape w0.qos1 j a r b f w.qos1
  ∧ optQShape w0.qos2 j a r b f w.qos2
  ∧ List.Forall₂ (AShape · j a r b f ·) w0.chain w.chain

/-- A QOS usage block after a balanced lifecycle sequence: every group and
per-user counter equals its initial value, except grp_used_cpu_run_secs,
which retains the full total_cpus * time_limit * 60 contribution of each
of the nb JOB_BEGIN events (JOB_FINI never subtracts it). -/
structure QRestored (q0 : QosUsage) (j : Job) (nb : Nat) (q : QosUsage) : Prop where
  subs : q.grp_used_submit_jobs = q0.grp_used_submit_jobs
  jobs : q.grp_used_jobs = q0.grp_used_jobs
  cpus : q.grp_used_cpus = q0.grp_used_cpus
  mem : q.grp_used_mem = q0.grp_used_mem
  nodes : q.grp_used_nodes = q0.grp_used_nodes
  runsecs : q.grp_used_cpu_run_secs
    = q0.grp_used_cpu_run_secs
      + (nb : Int) * ((j.total_cpus * j.time_limit * 60 : Nat) : Int)
  wall : q.grp_used_wall = q0.grp_used_wall
  raw : q.usage_raw = q0.usage_raw
  usubs : (userView q.user_limit_list j.user_id).submit_jobs
    = (userView q0.user_limit_list j.user_id).submit_jobs
  ujobs : (userView q.user_limit_list j.user_id).jobs
    = (userView q0.user_limit_list j.user_id).jobs
  ucpus : (userView q.user_limit_list j.user_id).cpus
    = (userView q0.user_limit_list j.user_id).cpus
  unodes : (userView q.user_limit_list j.user_id).nodes
    = (userView q0.user_limit_list j.user_id).nodes
  uother : ∀ v, v ≠ j.user_id →
    find_used_limits q.user_limit_list v = find_used_limits q0.user_limit_list v

/-- An association usage block after a balanced lifecycle sequence: every
counter equals its initial value, except grp_used_cpu_run_secs, which
retains the contribution of each of the nb JOB_BEGIN events. -/
structure ARestored (a0 : AssocUsage) (j : Job) (nb : Nat) (x : AssocUsage) : Prop where
  subs : x.used_submit_jobs = a0.used_submit_jobs
  jobs : x.used_jobs = a0.used_jobs
  cpus : x.grp_used_cpus = a0.grp_used_cpus
  mem : x.grp_used_mem = a0.grp_used_mem
  nodes : x.grp_used_nodes = a0.grp_used_nodes
  runsecs : x.grp_used_cpu_run_secs
    = a0.grp_used_cpu_run_secs
      + (nb : Int) * ((j.total_cpus * j.time_limit * 60 : Nat) : Int)
  wall : x.grp_used_wall = a0.grp_used_wall
  raw : x.usage_raw = a0.usage_raw

/-- Restoration of an optional QOS usage slot. -/
def optQRestored (q0? : Option QosUsage) (j : Job) (nb : Nat) :
    Option QosUsage → Prop
  | none => q0? = none
  | some q => ∃ q0, q0? = some q0 ∧ QRestored q0 j nb q

/-- Restoration of the whole world after a balanced lifecycle sequence. -/
def WRestored (w0 : World) (j : Job) (nb : Nat) (w : World) : Prop :=
  optQRestored w0.qos1 j nb w.qos1
  ∧ optQRestored w0.qos2 j nb w.qos2
  ∧ List.Forall₂ (fun x y => ARestored x j nb y) w0.chain w.chain

theorem acct_policy_job_time_out_true (e : EnforceFlags) (j : JobR)
    (jq pq : Option QosRec) (chain : List AssocRec) (now : Int) :
    (acct_policy_job_time_out e j jq pq chain now).1 = true →
    (acct_policy_job_time_out e j jq pq chain now).2 = Reason.FAIL_TIMEOUT := by
  unfold acct_policy_job_time_out
  split_ifs with hg
  · simp
  · intro ht
    exact of_decide_eq_true ht

theorem find_used_limits_append_self (l : List UsedLimits) (u : Nat)
    (h : find_used_limits l u = none) :
    find_used_limits (l ++ [zeroUsed u]) u = some (zeroUsed u) := by
  induction l with
  | nil => simp [find_used_limits, zeroUsed]
  | cons a t ih =>
    by_cases ha : a.uid = u
    · simp [find_used_limits, ha] at h
    · simp only [find_used_limits, List.cons_append, ha, if_false] at h ⊢
      exact ih h

/-- C8: for every job, the QOS ordering resolver returns the empty pair
when neither a job QOS nor a partition QOS exists, the present one with an
empty secondary when exactly one exists, the pair ordered by the PART_QOS
flag when both exist, and drops the secondary whenever the two slots would
resolve to the same QOS object. -/
theorem C8_qos_order_resolver (jq pq : Option QosRec) :
    set_qos_order jq pq = set_qos_order_claim jq pq := by
  cases jq with
  | none => cases pq <;> rfl
  | some j =>
    cases pq with
    | none => rfl
    | some p =>
      simp only [set_qos_order, set_qos_order_claim]
      by_cases hf : j.flag_part_qos <;> simp [hf]

/-- C3 counterexample: with a primary QOS whose max_nodes_pj is 10 and a
secondary whose max_nodes_pj is 5, the effective value used by
acct_policy_get_max_nodes is 10 (and the returned cap is 10), while the
field-wise minimum with INF identity would be 5. -/
theorem C3_counterexample :
    (get_max_nodes_qos_rec { qosAllInf 1 with flag_part_qos := true, max_nodes_pj := 10 }
       (some { qosAllInf 2 with max_nodes_pj := 5 })).max_nodes_pj = 10
    ∧ qos_merge_fieldwise_min_claim 10 5 = 5
    ∧ acct_policy_get_max_nodes ⟨true, false, false⟩
        (some { qosAllInf 1 with flag_part_qos := true, max_nodes_pj := 10 })
        (some { qosAllInf 2 with max_nodes_pj := 5 }) []
      = (10, some Reason.WAIT_QOS_MAX_NODE_PER_JOB)
    ∧ (10 : Int) ≠ 5 := by decide

/-- C3 amended: in acct_policy_get_max_nodes the effective max_nodes_pj,
max_nodes_pu and grp_nodes of a job carrying two QOS are not field-wise
minima: each is the primary QOS value, with the secondary filling only the
slots the primary leaves at INF (first wins, second fills); with no
secondary the primary is used unchanged. -/
theorem C3_first_wins_second_fills (q1 q2 : QosRec) :
    (get_max_nodes_qos_rec q1 (some q2)).max_nodes_pj
      = (if q1.max_nodes_pj = INFINITE then q2.max_nodes_pj else q1.max_nodes_pj)
    ∧ (get_max_nodes_qos_rec q1 (some q2)).max_nodes_pu
      = (if q1.max_nodes_pu = INFINITE then q2.max_nodes_pu else q1.max_nodes_pu)
    ∧ (get_max_nodes_qos_rec q1 (some q2)).grp_nodes
      = (if q1.grp_nodes = INFINITE then q2.grp_nodes else q1.grp_nodes)
    ∧ get_max_nodes_qos_rec q1 none = q1 := by
  unfold get_max_nodes_qos_rec
  by_cases h1 : q1.max_nodes_pj = INFINITE <;>
  by_cases h2 : q1.max_nodes_pu = INFINITE <;>
  by_cases h3 : q1.grp_nodes = INFINITE <;>
  simp [h1, h2, h3]

/-- C2: with strict checking, a requested cpu count of 100, a QOS
max_cpus_pj of 50, nothing admin-set and every earlier limit passing,
acct_policy_validate still returns true and writes no reason: the
`|= INFINITE` guard of the max-cpus-per-job block is always true, so the
block never runs.  Under the specification reading of the guard as `!=`,
the same input fails with WAIT_QOS_MAX_CPUS_PER_JOB. -/
theorem C2_max_cpus_check_dead :
    acct_policy_validate descC2 partC2 [assocAllInf] none true lsZero false
      = ⟨true, descC2, lsZero, none⟩
    ∧ qos_validate_max_cpus_pj_claim true false
        (lsZero.max_tres.getD TRES_ARRAY_CPU 0) INFINITE qosC2.max_cpus_pj
        (descC2.tres_req_cnt.getD TRES_ARRAY_CPU 0)
      = some Reason.WAIT_QOS_MAX_CPUS_PER_JOB := by decide

/-- C6: a job requesting time_limit = NO_VAL and min_nodes = 2 with no
QOS, an association whose only finite limit is max_wall_pj = 45 and a
partition with max_time = 30 validates successfully, with the job time
limit clipped to 30 = min(45, 30) and limit_set.time set to 1. -/
theorem C6_time_clip_by_partition :
    (acct_policy_validate descC6 partC6 [assocC6] none true lsZero false).rc = true
    ∧ (acct_policy_validate descC6 partC6 [assocC6] none true lsZero false).desc.time_limit = 30
    ∧ (acct_policy_validate descC6 partC6 [assocC6] none true lsZero false).ls.time = 1 := by
  decide

/-- C9: whenever ACCOUNTING_ENFORCE_SAFE is set (or ACCOUNTING_ENFORCE_LIMITS
is not), acct_policy_job_time_out returns false and leaves the job state
reason unchanged; and in every state, a true return leaves the state reason
at FAIL_TIMEOUT. -/
theorem C9_timeout_guard (e : EnforceFlags) (j : JobR) (jq pq : Option QosRec)
    (chain : List AssocRec) (now : Int)
    (h : e.safe = true ∨ e.limits = false) :
    acct_policy_job_time_out e j jq pq chain now = (false, j.state_reason)
    ∧ ∀ (e2 : EnforceFlags) (j2 : JobR) (jq2 pq2 : Option QosRec)
        (ch2 : List AssocRec) (now2 : Int),
        (acct_policy_job_time_out e2 j2 jq2 pq2 ch2 now2).1 = true →
        (acct_policy_job_time_out e2 j2 jq2 pq2 ch2 now2).2 = Reason.FAIL_TIMEOUT := by
  constructor
  · unfold acct_policy_job_time_out
    rcases h with h | h <;> simp [h]
  · intro e2 j2 jq2 pq2 ch2 now2 ht
    exact acct_policy_job_time_out_true e2 j2 jq2 pq2 ch2 now2 ht

/-- C9 witness: with LIMITS and SAFE both set, the time-out evaluator of a
concrete job returns false and leaves the WAIT_NO_REASON state reason in
place. -/
theorem C9_timeout_guard_witness :
    acct_policy_job_time_out ⟨true, true, false⟩
        ⟨0, 20, 1, 0, 0, Reason.WAIT_NO_REASON, lsZero⟩ none none [] 1000
      = (false, Reason.WAIT_NO_REASON) :=
  (C9_timeout_guard ⟨true, true, false⟩
    ⟨0, 20, 1, 0, 0, Reason.WAIT_NO_REASON, lsZero⟩ none none [] 1000
    (Or.inl rfl)).1

/-- C10: when the job user has no entry in the per-user list of a QOS,
both the pre-select and the post-select QOS checks leave the QOS
user_limit_list unchanged (the scratch record is freed, never inserted),
and their results coincide with the results over a list holding an
explicit all-zero record for that user. -/
theorem C10_scratch_record (safe : Bool) (j : JobR) (qp : QosRec) (qr : QosRec)
    (nc cc : Nat) (jm jctl : Int) (am : Bool)
    (h : find_used_limits qp.usage.user_limit_list j.user_id = none) :
    (qos_job_runnable_pre_select j qp qr).2 = qp.usage.user_limit_list
    ∧ (qos_job_runnable_pre_select j qp qr).1
        = (qos_job_runnable_pre_select j
            { qp with usage := { qp.usage with
                user_limit_list := qp.usage.user_limit_list ++ [zeroUsed j.user_id] } }
            qr).1
    ∧ (qos_job_runnable_post_select safe j qp nc cc jm jctl am (qr, none)).2
        = qp.usage.user_limit_list
    ∧ (qos_job_runnable_post_select safe j qp nc cc jm jctl am (qr, none)).1
        = (qos_job_runnable_post_select safe j
            { qp with usage := { qp.usage with
                user_limit_list := qp.usage.user_limit_list ++ [zeroUsed j.user_id] } }
            nc cc jm jctl am (qr, none)).1 := by
  refine ⟨rfl, ?_, rfl, ?_⟩
  · unfold qos_job_runnable_pre_select
    simp only [h, find_used_limits_append_self _ _ h, Option.getD_none, Option.getD_some]
    rfl
  · unfold qos_job_runnable_post_select
    simp only [h, find_used_limits_append_self _ _ h, Option.getD_none, Option.getD_some]
    rfl

theorem qrun_some (bs : List (QosRec → QosRec × Option Reason)) (q : QosRec)
    (r : Reason) : qrun bs (q, some r) = (q, some r) := by
  induction bs with
  | nil => rfl
  | cons f fs ih => simpa [qrun, qstep] using ih

theorem qrun_none_of_none (bs : List (QosRec → QosRec × Option Reason))
    (s : QosRec × Option Reason) (h : (qrun bs s).2 = none) : s.2 = none := by
  rcases s with ⟨q, o⟩
  cases o with
  | none => rfl
  | some r => rw [qrun_some] at h; exact h

theorem blockRel_refl (f : QosRec → QosRec × Option Reason) : blockRel f f :=
  fun _ _ => rfl

theorem qrun_rel {bs cs : List (QosRec → QosRec × Option Reason)}
    (hrel : List.Forall₂ blockRel bs cs) :
    ∀ s, (qrun bs s).2 = none → qrun cs s = qrun bs s := by
  induction hrel with
  | nil => intro s _; rfl
  | @cons f g fs gs hfg _ ih =>
    intro s h
    rcases s with ⟨q, o⟩
    cases o with
    | some r => rw [qrun_some, qrun_some]
    | none =>
      have hb : qrun (f :: fs) (q, none) = qrun fs (f q) := rfl
      rw [hb] at h
      have hfq : (f q).2 = none := qrun_none_of_none fs (f q) h
      have hgq : g q = f q := hfg q hfq
      calc qrun (g :: gs) (q, none) = qrun gs (g q) := rfl
        _ = qrun gs (f q) := by rw [hgq]
        _ = qrun fs (f q) := ih (f q) h
        _ = qrun (f :: fs) (q, none) := rfl

theorem ps_grp_cpu_mins_rel (qp : QosRec) (um crm jctl : Int) :
    blockRel (ps_grp_cpu_mins true qp um crm jctl)
      (ps_grp_cpu_mins false qp um crm jctl) := by
  intro q h
  unfold ps_grp_cpu_mins at h ⊢
  by_cases hap : (q.grp_cpu_mins = INFINITE) ∧ (qp.grp_cpu_mins ≠ INFINITE)
  · simp only [if_pos hap] at h ⊢
    by_cases hu : um ≥ qp.grp_cpu_mins
    · simp only [if_pos hu] at h
      exact absurd h (by simp)
    · simp only [if_neg hu, true_and] at h ⊢
      rw [if_neg (show ¬((false = true) ∧ (jctl + crm > qp.grp_cpu_mins - um)) from by simp)]
      by_cases hx : jctl + crm > qp.grp_cpu_mins - um
      · rw [if_pos hx] at h
        exact absurd h (by simp)
      · rw [if_neg hx] at h ⊢
  · simp only [if_neg hap] at h ⊢

theorem qos_post_blocks_rel (j : JobR) (qp : QosRec) (nc cc : Nat)
    (jm jctl : Int) (am : Bool) (ul : UsedLimits) :
    List.Forall₂ blockRel (qos_post_blocks true j qp nc cc jm jctl am ul)
      (qos_post_blocks false j qp nc cc jm jctl am ul) := by
  simp only [qos_post_blocks]
  refine List.Forall₂.cons (ps_grp_cpu_mins_rel qp _ _ jctl) ?_
  refine List.Forall₂.cons (blockRel_refl _) ?_
  refine List.Forall₂.cons (blockRel_refl _) ?_
  refine List.Forall₂.cons (blockRel_refl _) ?_
  refine List.Forall₂.cons (blockRel_refl _) ?_
  refine List.Forall₂.cons (blockRel_refl _) ?_
  refine List.Forall₂.cons (blockRel_refl _) ?_
  refine List.Forall₂.cons (blockRel_refl _) ?_
  refine List.Forall₂.cons (blockRel_refl _) ?_
  refine List.Forall₂.cons (blockRel_refl _) ?_
  exact List.Forall₂.cons (blockRel_refl _) List.Forall₂.nil

theorem qos_post_select_rel (j : JobR) (qp : QosRec) (nc cc : Nat)
    (jm jctl : Int) (am : Bool) (s : QosRec × Option Reason)
    (h : ((qos_job_runnable_post_select true j qp nc cc jm jctl am s).1).2 = none) :
    (qos_job_runnable_post_select false j qp nc cc jm jctl am s).1
      = (qos_job_runnable_post_select true j qp nc cc jm jctl am s).1 := by
  simp only [qos_job_runnable_post_select] at h ⊢
  exact qrun_rel (qos_post_blocks_rel j qp nc cc jm jctl am _) s h

theorem firstSome_cons_none {x : Option Reason} {l : List (Option Reason)} :
    firstSome (x :: l) = none ↔ x = none ∧ firstSome l = none := by
  cases x <;> simp [firstSome]

theorem pa_grp_cpu_mins_none (qr : QosRec) (a : AssocRec) (um crm jctl : Int)
    (h : pa_grp_cpu_mins true qr a um crm jctl = none) :
    pa_grp_cpu_mins false qr a um crm jctl = none := by
  unfold pa_grp_cpu_mins at h ⊢
  by_cases hap : (qr.grp_cpu_mins = INFINITE) ∧ (a.grp_tres_mins_cpu ≠ INFINITE)
  · simp only [if_pos hap] at h ⊢
    by_cases hu : um ≥ a.grp_tres_mins_cpu
    · simp only [if_pos hu] at h
      exact absurd h (by simp)
    · simp only [if_neg hu, true_and] at h ⊢
      rw [if_neg (show ¬((false = true) ∧ (jctl + crm > a.grp_tres_mins_cpu - um)) from by simp)]
  · simp only [if_neg hap]

theorem post_assoc_checks_none (j : JobR) (qr : QosRec) (nc cc : Nat)
    (jm jctl : Int) (am : Bool) (par : Bool) (a : AssocRec)
    (h : post_assoc_checks true j qr nc cc jm jctl am par a = none) :
    post_assoc_checks false j qr nc cc jm jctl am par a = none := by
  simp only [post_assoc_checks, List.cons_append, firstSome_cons_none] at h ⊢
  exact ⟨pa_grp_cpu_mins_none qr a _ _ jctl h.1, h.2⟩

theorem post_assoc_loop_none (j : JobR) (qr : QosRec) (nc cc : Nat)
    (jm jctl : Int) (am : Bool) :
    ∀ (chain : List AssocRec) (par : Bool),
      post_assoc_loop true j qr nc cc jm jctl am chain par = none →
      post_assoc_loop false j qr nc cc jm jctl am chain par = none := by
  intro chain
  induction chain with
  | nil => intro par _; rfl
  | cons a rest ih =>
    intro par h
    unfold post_assoc_loop at h ⊢
    cases hc : post_assoc_checks true j qr nc cc jm jctl am par a with
    | some r => rw [hc] at h; exact absurd h (by simp)
    | none =>
      rw [hc] at h
      rw [post_assoc_checks_none j qr nc cc jm jctl am par a hc]
      exact ih true h

theorem post_stage_rel (j : JobR) (qo : Option QosRec) (nc cc : Nat)
    (jm jctl : Int) (am : Bool) (s : QosRec × Option Reason)
    (h : (post_stage true j qo nc cc jm jctl am s).2 = none) :
    post_stage false j qo nc cc jm jctl am s
      = post_stage true j qo nc cc jm jctl am s := by
  cases qo with
  | none => rfl
  | some qp => exact qos_post_select_rel j qp nc cc jm jctl am s h

theorem post_core_safe_mono (j : JobR) (q1o q2o : Option QosRec)
    (chain : List AssocRec) (nc cc : Nat) (jm jctl : Int) (am : Bool)
    (r0 : Reason)
    (h : (post_core true j q1o q2o chain nc cc jm jctl am r0).1 = true) :
    (post_core false j q1o q2o chain nc cc jm jctl am r0).1 = true := by
  simp only [post_core] at h ⊢
  cases h1 : (post_stage true j q1o nc cc jm jctl am (initQosRec, none)).2 with
  | some r => rw [h1] at h; simp at h
  | none =>
    rw [h1] at h
    rw [post_stage_rel j q1o nc cc jm jctl am _ h1, h1]
    cases h2 : (post_stage true j q2o nc cc jm jctl am
        (post_stage true j q1o nc cc jm jctl am (initQosRec, none))).2 with
    | some r => rw [h2] at h; simp at h
    | none =>
      rw [h2] at h
      rw [post_stage_rel j q2o nc cc jm jctl am _ h2, h2]
      cases hl : post_assoc_loop true j
          (post_stage true j q2o nc cc jm jctl am
            (post_stage true j q1o nc cc jm jctl am (initQosRec, none))).1
          nc cc jm jctl am chain false with
      | some r => rw [hl] at h; simp at h
      | none =>
        rw [post_assoc_loop_none j _ nc cc jm jctl am chain false hl]

theorem post_select_body_safe_mono (j : JobR) (jq pq : Option QosRec)
    (chain : List AssocRec) (nc cc pn : Nat)
    (h : (post_select_body true j jq pq chain nc cc pn).1 = true) :
    (post_select_body false j jq pq chain nc cc pn).1 = true := by
  unfold post_select_body at h ⊢
  exact post_core_safe_mono j _ _ chain nc cc _ _ _ _ h

/-- C5: the safe-limits check only strengthens admission: whenever the
post-select runnable check admits a job with ACCOUNTING_ENFORCE_SAFE set,
it also admits it with the flag clear; and on the concrete scenario with
grp_cpu_mins = 1000, 900 cpu-minutes used and a 10-cpu, 20-minute job,
the check admits with SAFE off but rejects with SAFE on, setting the
state reason to WAIT_QOS_GRP_CPU_MIN. -/
theorem C5_safe_limits (e : EnforceFlags) (j : JobR) (jq pq : Option QosRec)
    (chain : List AssocRec) (nc cc pn : Nat)
    (h : (acct_policy_job_runnable_post_select { e with safe := true } j jq pq
            chain nc cc pn).1 = true) :
    (acct_policy_job_runnable_post_select { e with safe := false } j jq pq
        chain nc cc pn).1 = true
    ∧ acct_policy_job_runnable_post_select ⟨true, false, false⟩ jobS4
        (some qosS4) none [] 1 10 0 = (true, Reason.WAIT_NO_REASON)
    ∧ acct_policy_job_runnable_post_select ⟨true, true, false⟩ jobS4
        (some qosS4) none [] 1 10 0 = (false, Reason.WAIT_QOS_GRP_CPU_MIN) := by
  refine ⟨?_, by decide, by decide⟩
  unfold acct_policy_job_runnable_post_select at h ⊢
  by_cases hl : e.limits = true
  · simp only [hl] at h ⊢
    simp at h ⊢
    exact post_select_body_safe_mono j jq pq chain nc cc pn h
  · simp only [hl] at h ⊢
    by_cases ha : e.associations = true <;> simp [ha, hl]

/-- C5 witness: a job with no QOS and no association chain is admitted
under safe mode, hence also without it (and the concrete scenario
evaluations hold). -/
theorem C5_safe_limits_witness :
    (acct_policy_job_runnable_post_select ⟨true, false, false⟩ jobS4 none none
        [] 1 10 0).1 = true :=
  (C5_safe_limits ⟨true, true, false⟩ jobS4 none none [] 1 10 0 (by decide)).1

/-- C10 witness: instantiation at a QOS with an empty per-user list. -/
theorem C10_scratch_record_witness :
    (qos_job_runnable_pre_select ⟨0, 20, 1, 0, 0, Reason.WAIT_NO_REASON, lsZero⟩
        (qosAllInf 1) initQosRec).2 = (qosAllInf 1).usage.user_limit_list
    ∧ (qos_job_runnable_pre_select ⟨0, 20, 1, 0, 0, Reason.WAIT_NO_REASON, lsZero⟩
        (qosAllInf 1) initQosRec).1
        = (qos_job_runnable_pre_select ⟨0, 20, 1, 0, 0, Reason.WAIT_NO_REASON, lsZero⟩
            { qosAllInf 1 with usage := { (qosAllInf 1).usage with
                user_limit_list := (qosAllInf 1).usage.user_limit_list ++ [zeroUsed 0] } }
            initQosRec).1 := by
  have h := C10_scratch_record false ⟨0, 20, 1, 0, 0, Reason.WAIT_NO_REASON, lsZero⟩
    (qosAllInf 1) initQosRec 1 1 0 0 false (by decide)
  exact ⟨h.1, h.2.1⟩

theorem find_used_limits_mem {l : List UsedLimits} {u : Nat} {x : UsedLimits}
    (h : find_used_limits l u = some x) : x ∈ l := by
  induction l with
  | nil => simp [find_used_limits] at h
  | cons a t ih =>
    by_cases ha : a.uid = u
    · simp only [find_used_limits, ha, if_true] at h
      obtain rfl := Option.some.inj h
      exact List.mem_cons_self a t
    · simp only [find_used_limits, ha, if_false] at h
      exact List.mem_cons_of_mem a (ih h)

theorem mem_updateFirstUser {l : List UsedLimits} {u : Nat}
    {f : UsedLimits → UsedLimits} {v : UsedLimits}
    (hv : v ∈ updateFirstUser l u f) :
    v ∈ l ∨ ∃ x, find_used_limits l u = some x ∧ v = f x := by
  induction l with
  | nil => simp [updateFirstUser] at hv
  | cons a t ih =>
    by_cases ha : a.uid = u
    · simp only [updateFirstUser, ha, if_true] at hv
      rcases List.mem_cons.mp hv with hva | hvt
      · exact Or.inr ⟨a, by simp [find_used_limits, ha], hva⟩
      · exact Or.inl (List.mem_cons_of_mem a hvt)
    · simp only [updateFirstUser, ha, if_false] at hv
      rcases List.mem_cons.mp hv with hva | hvt
      · exact Or.inl (hva ▸ List.mem_cons_self a t)
      · rcases ih hvt with hl | ⟨x, hx, hvx⟩
        · exact Or.inl (List.mem_cons_of_mem a hl)
        · exact Or.inr ⟨x, by simpa [find_used_limits, ha] using hx, hvx⟩

theorem usedNonneg_zero (u : Nat) : usedNonneg (zeroUsed u) := by
  simp [usedNonneg, zeroUsed]

theorem userView_nonneg {l : List UsedLimits} {u : Nat}
    (h : ∀ x ∈ l, usedNonneg x) : usedNonneg (userView l u) := by
  unfold userView
  cases hf : find_used_limits l u with
  | none => exact usedNonneg_zero u
  | some x => exact h x (find_used_limits_mem hf)

theorem ensure_list_nonneg {l : List UsedLimits} {u : Nat}
    (h : ∀ x ∈ l, usedNonneg x) :
    ∀ x ∈ ensureUser l u, usedNonneg x := by
  unfold ensureUser
  split_ifs
  · exact h
  · intro x hx
    rcases List.mem_append.mp hx with hx | hx
    · exact h x hx
    · rcases List.mem_singleton.mp hx with rfl
      exact usedNonneg_zero u

theorem clampSubLog_nonneg (x d : Int) : 0 ≤ (clampSubLog x d).1 := by
  unfold clampSubLog
  split_ifs with h
  · exact le_refl 0
  · omega

theorem guardDecLog_nonneg {x : Int} (h : 0 ≤ x) : 0 ≤ (guardDecLog x).1 := by
  unfold guardDecLog
  split_ifs with hx
  · omega
  · exact h

theorem qos_adjust_nonneg (t : Ev) (j : Job) (ucrs jm : Int)
    (hu : 0 ≤ ucrs) (hm : 0 ≤ jm) (q : QosUsage) (hq : qosUsageNonneg q) :
    qosUsageNonneg (qos_adjust_limit_usage t j ucrs jm q).1 := by
  obtain ⟨h1, h2, h3, h4, h5, h6, hlist⟩ := hq
  have hl1 := ensure_list_nonneg (u := j.user_id) hlist
  have hul := userView_nonneg (u := j.user_id) hl1
  cases t with
  | addSubmit =>
    refine ⟨h1, ?_, h3, h4, h5, h6, ?_⟩
    · show 0 ≤ q.grp_used_submit_jobs + 1
      omega
    · intro v hv
      rcases mem_updateFirstUser hv with hvl | ⟨x, hx, rfl⟩
      · exact hl1 v hvl
      · have hxn := hl1 x (find_used_limits_mem hx)
        obtain ⟨ha, hb, hc, hd⟩ := hxn
        refine ⟨ha, hb, hc, ?_⟩
        show 0 ≤ x.submit_jobs + 1
        omega
  | remSubmit =>
    simp only [qos_adjust_limit_usage]
    set L := ensureUser q.user_limit_list j.user_id with hL
    refine ⟨h1, guardDecLog_nonneg h2, h3, h4, h5, h6, ?_⟩
    intro v hv
    split_ifs at hv with hg
    · rcases mem_updateFirstUser hv with hvl | ⟨x, hx, rfl⟩
      · exact hl1 v hvl
      · have hxn := hl1 x (find_used_limits_mem hx)
        have hxv : userView L j.user_id = x := by
          unfold userView
          rw [hx]
          rfl
        obtain ⟨ha, hb, hc, hd⟩ := hxn
        refine ⟨ha, hb, hc, ?_⟩
        rw [hxv] at hg
        show 0 ≤ x.submit_jobs - 1
        omega
    · exact hl1 v hv
  | jobBegin =>
    refine ⟨?_, h2, ?_, ?_, ?_, ?_, ?_⟩
    · show 0 ≤ q.grp_used_jobs + 1
      omega
    · show 0 ≤ q.grp_used_cpus + (j.total_cpus : Int)
      omega
    · show 0 ≤ q.grp_used_mem + jm
      omega
    · show 0 ≤ q.grp_used_nodes + (j.node_cnt : Int)
      omega
    · show 0 ≤ q.grp_used_cpu_run_secs + ucrs
      omega
    · intro v hv
      rcases mem_updateFirstUser hv with hvl | ⟨x, hx, rfl⟩
      · exact hl1 v hvl
      · have hxn := hl1 x (find_used_limits_mem hx)
        obtain ⟨ha, hb, hc, hd⟩ := hxn
        refine ⟨?_, ?_, ?_, hd⟩
        · show 0 ≤ x.jobs + 1
          omega
        · show 0 ≤ x.cpus + (j.total_cpus : Int)
          omega
        · show 0 ≤ x.nodes + (j.node_cnt : Int)
          omega
  | jobFini =>
    refine ⟨clampSubLog_nonneg _ _, h2, clampSubLog_nonneg _ _,
            clampSubLog_nonneg _ _, clampSubLog_nonneg _ _, h6, ?_⟩
    intro v hv
    rcases mem_updateFirstUser hv with hvl | ⟨x, hx, rfl⟩
    · exact hl1 v hvl
    · have hxn := hl1 x (find_used_limits_mem hx)
      obtain ⟨ha, hb, hc, hd⟩ := hxn
      exact ⟨clampSubLog_nonneg _ _, clampSubLog_nonneg _ _,
             clampSubLog_nonneg _ _, hd⟩

theorem assoc_adjust_nonneg (t : Ev) (j : Job) (ucrs jm : Int)
    (hu : 0 ≤ ucrs) (hm : 0 ≤ jm) (a : AssocUsage) (ha : assocUsageNonneg a) :
    assocUsageNonneg (assoc_adjust_limit_usage t j ucrs jm a).1 := by
  obtain ⟨h1, h2, h3, h4, h5, h6⟩ := ha
  cases t with
  | addSubmit =>
    refine ⟨h1, ?_, h3, h4, h5, h6⟩
    show 0 ≤ a.used_submit_jobs + 1
    omega
  | remSubmit => exact ⟨h1, guardDecLog_nonneg h2, h3, h4, h5, h6⟩
  | jobBegin =>
    refine ⟨?_, h2, ?_, ?_, ?_, ?_⟩
    · show 0 ≤ a.used_jobs + 1
      omega
    · show 0 ≤ a.grp_used_cpus + (j.total_cpus : Int)
      omega
    · show 0 ≤ a.grp_used_mem + jm
      omega
    · show 0 ≤ a.grp_used_nodes + (j.node_cnt : Int)
      omega
    · show 0 ≤ a.grp_used_cpu_run_secs + ucrs
      omega
  | jobFini =>
    exact ⟨guardDecLog_nonneg h1, h2, clampSubLog_nonneg _ _,
           clampSubLog_nonneg _ _, clampSubLog_nonneg _ _, h6⟩

theorem adjust_assoc_walk_nonneg (t : Ev) (j : Job) (ucrs jm : Int)
    (hu : 0 ≤ ucrs) (hm : 0 ≤ jm) :
    ∀ (c : List AssocUsage), (∀ a ∈ c, assocUsageNonneg a) →
      ∀ x ∈ (adjust_assoc_walk t j ucrs jm c).1, assocUsageNonneg x := by
  intro c
  induction c with
  | nil => intro _ x hx; simp [adjust_assoc_walk] at hx
  | cons a rest ih =>
    intro hc x hx
    simp only [adjust_assoc_walk] at hx
    rcases List.mem_cons.mp hx with rfl | hx
    · exact assoc_adjust_nonneg t j ucrs jm hu hm a (hc a (List.mem_cons_self a rest))
    · exact ih (fun y hy => hc y (List.mem_cons_of_mem a hy)) x hx

theorem adj_run_secs_nonneg (t : Ev) (j : Job) : 0 ≤ adj_run_secs t j := by
  unfold adj_run_secs
  split_ifs
  · exact Int.ofNat_nonneg _
  · exact le_refl 0

theorem adj_job_memory_nonneg (j : Job) : 0 ≤ adj_job_memory j := by
  unfold adj_job_memory job_memory_calc
  split_ifs
  · exact Int.ofNat_nonneg _
  · exact Int.ofNat_nonneg _

theorem adjust_nonneg (enf : Bool) (t : Ev) (j : Job) (w : World)
    (hw : worldNonneg w) : worldNonneg (adjust_limit_usage enf t j w) := by
  obtain ⟨hw1, hw2, hw3⟩ := hw
  cases enf with
  | false => exact ⟨hw1, hw2, hw3⟩
  | true =>
    have hu := adj_run_secs_nonneg t j
    have hm := adj_job_memory_nonneg j
    unfold adjust_limit_usage
    rw [if_neg (by simp)]
    refine ⟨?_, ?_, ?_⟩
    · cases hq : w.qos1 with
      | none => simp [adjust_qos_opt, optQosNonneg]
      | some q =>
        rw [hq] at hw1
        simp only [adjust_qos_opt, optQosNonneg]
        exact qos_adjust_nonneg t j _ _ hu hm q hw1
    · cases hq : w.qos2 with
      | none => simp [adjust_qos_opt, optQosNonneg]
      | some q =>
        rw [hq] at hw2
        simp only [adjust_qos_opt, optQosNonneg]
        exact qos_adjust_nonneg t j _ _ hu hm q hw2
    · exact adjust_assoc_walk_nonneg t j _ _ hu hm w.chain hw3

theorem applyEvents_nonneg (j : Job) (S : List Ev) :
    ∀ w, worldNonneg w → worldNonneg (applyEvents true j S w) := by
  induction S with
  | nil => intro w hw; exact hw
  | cons t rest ih =>
    intro w hw
    exact ih (adjust_limit_usage true t j w) (adjust_nonneg true t j w hw)


/-- C7: starting from the all-zero state, REM_SUBMIT then ADD_SUBMIT for
the same job leaves the QOS grp_used_submit_jobs, the per-user submit_jobs
entry and the association used_submit_jobs each at exactly 1, with an
underflow debug log emitted on the first step; and in general every
sequence of lifecycle events applied through the adjuster keeps every
usage counter non-negative. -/
theorem C7_underflow_saturation (S : List Ev) (j : Job) (w : World)
    (hw : worldNonneg w) :
    worldNonneg (applyEvents true j S w)
    ∧ ((applyEvents true jobS5 [Ev.remSubmit, Ev.addSubmit] worldS5).qos1.map
        (fun q => q.grp_used_submit_jobs)) = some 1
    ∧ ((applyEvents true jobS5 [Ev.remSubmit, Ev.addSubmit] worldS5).qos1.map
        (fun q => (userView q.user_limit_list jobS5.user_id).submit_jobs)) = some 1
    ∧ ((applyEvents true jobS5 [Ev.remSubmit, Ev.addSubmit] worldS5).chain.map
        (fun a => a.used_submit_jobs)) = [1]
    ∧ 0 < (applyEvents true jobS5 [Ev.remSubmit] worldS5).logs :=
  ⟨applyEvents_nonneg j S w hw, by decide, by decide, by decide, by decide⟩

/-- C7 witness: the lifecycle sequence ADD, BEGIN, FINI, REM on the
all-zero world keeps every counter non-negative. -/
theorem C7_underflow_saturation_witness :
    worldNonneg (applyEvents true jobS5
      [Ev.addSubmit, Ev.jobBegin, Ev.jobFini, Ev.remSubmit] worldS5) :=
  (C7_underflow_saturation [Ev.addSubmit, Ev.jobBegin, Ev.jobFini, Ev.remSubmit]
    jobS5 worldS5
    (by
      refine ⟨⟨le_refl 0, le_refl 0, le_refl 0, le_refl 0, le_refl 0, le_refl 0, ?_⟩,
              trivial, ?_⟩
      · intro u hu
        simp [worldS5, emptyQosUsage] at hu
      · intro a ha
        simp only [worldS5] at ha
        rcases List.mem_singleton.mp ha with rfl
        exact ⟨le_refl 0, le_refl 0, le_refl 0, le_refl 0, le_refl 0, le_refl 0⟩)).1


theorem adjust_assoc_walk_getLast (t : Ev) (j : Job) (ucrs jm : Int)
    (c : List AssocUsage) :
    (adjust_assoc_walk t j ucrs jm c).1.getLast?
      = c.getLast?.map (fun a => (assoc_adjust_limit_usage t j ucrs jm a).1) := by
  induction c with
  | nil => rfl
  | cons a rest ih =>
    cases rest with
    | nil => simp [adjust_assoc_walk]
    | cons b r =>
      simp only [adjust_assoc_walk] at ih ⊢
      rw [List.getLast?_cons_cons, ih, List.getLast?_cons_cons]

/-- The original C4 wording fails: after an ADD_SUBMIT adjustment on a
two-element chain whose last element is the root, the root's
used_submit_jobs has changed from 0 to 1. -/
theorem C4_counterexample :
    ((adjust_limit_usage true Ev.addSubmit jobS5 worldC4).chain.getLast?).map
        (fun a => a.used_submit_jobs) = some 1
    ∧ (worldC4.chain.getLast?).map (fun a => a.used_submit_jobs) = some 0
    ∧ ((1 : Int) = 0 → False) := by
  decide

/-- C4 (amended): the adjuster's walk of the association chain is
inclusive of the root: the last element of the chain (the root, whose
parent pointer is null) receives exactly the same per-event adjustment
as every other association of the chain. -/
theorem C4_walk_includes_root (t : Ev) (j : Job) (w : World) :
    (adjust_limit_usage true t j w).chain.getLast?
      = w.chain.getLast?.map
          (fun a => (assoc_adjust_limit_usage t j (adj_run_secs t j)
            (adj_job_memory j) a).1) := by
  unfold adjust_limit_usage
  rw [if_neg (by simp)]
  exact adjust_assoc_walk_getLast t j _ _ w.chain


theorem find_used_limits_append_other (l : List UsedLimits) (u v : Nat)
    (hv : v ≠ u) :
    find_used_limits (l ++ [zeroUsed u]) v = find_used_limits l v := by
  induction l with
  | nil => simp [find_used_limits, zeroUsed, Ne.symm hv]
  | cons a t ih =>
    by_cases ha : a.uid = v
    · simp [find_used_limits, ha]
    · simp only [find_used_limits, List.cons_append, ha, if_false]
      exact ih

theorem find_updateFirstUser_self (l : List UsedLimits) (u : Nat)
    (g : UsedLimits → UsedLimits) (hg : ∀ y, (g y).uid = y.uid)
    (x : UsedLimits) (h : find_used_limits l u = some x) :
    find_used_limits (updateFirstUser l u g) u = some (g x) := by
  induction l with
  | nil => simp [find_used_limits] at h
  | cons a t ih =>
    by_cases ha : a.uid = u
    · simp only [find_used_limits, ha, if_true, Option.some.injEq] at h
      subst h
      simp [updateFirstUser, find_used_limits, ha, hg]
    · simp only [find_used_limits, ha, if_false] at h
      simp only [updateFirstUser, ha, if_false, find_used_limits]
      exact ih h

theorem find_updateFirstUser_other (l : List UsedLimits) (u : Nat)
    (g : UsedLimits → UsedLimits) (hg : ∀ y, (g y).uid = y.uid) (v : Nat)
    (hv : v ≠ u) :
    find_used_limits (updateFirstUser l u g) v = find_used_limits l v := by
  induction l with
  | nil => rfl
  | cons a t ih =>
    by_cases ha : a.uid = u
    · simp only [updateFirstUser, ha, if_true, find_used_limits, hg a]
      rw [if_neg (fun h => hv h.symm), if_neg (fun h => hv h.symm)]
    · simp only [updateFirstUser, ha, if_false, find_used_limits]
      by_cases hav : a.uid = v
      · simp [hav]
      · simp only [hav, if_false]
        exact ih

theorem find_ensureUser_self (l : List UsedLimits) (u : Nat) :
    find_used_limits (ensureUser l u) u = some (userView l u) := by
  unfold ensureUser userView
  cases h : find_used_limits l u with
  | none =>
    simp only [h, Option.isSome_none, Bool.false_eq_true, if_false,
      Option.getD_none]
    exact find_used_limits_append_self l u h
  | some x => simp [h]

theorem find_ensureUser_other (l : List UsedLimits) (u v : Nat)
    (hv : v ≠ u) :
    find_used_limits (ensureUser l u) v = find_used_limits l v := by
  unfold ensureUser
  split_ifs with h
  · rfl
  · exact find_used_limits_append_other l u v hv

theorem userView_ensure (l : List UsedLimits) (u : Nat) :
    userView (ensureUser l u) u = userView l u := by
  have h := find_ensureUser_self l u
  unfold userView
  rw [h]
  rfl

theorem userView_update_ensure (l : List UsedLimits) (u : Nat)
    (g : UsedLimits → UsedLimits) (hg : ∀ y, (g y).uid = y.uid) :
    userView (updateFirstUser (ensureUser l u) u g) u = g (userView l u) := by
  unfold userView
  rw [find_updateFirstUser_self (ensureUser l u) u g hg (userView l u)
        (find_ensureUser_self l u)]
  rfl

theorem find_update_ensure_other (l : List UsedLimits) (u : Nat)
    (g : UsedLimits → UsedLimits) (hg : ∀ y, (g y).uid = y.uid) (v : Nat)
    (hv : v ≠ u) :
    find_used_limits (updateFirstUser (ensureUser l u) u g) v
      = find_used_limits l v := by
  rw [find_updateFirstUser_other (ensureUser l u) u g hg v hv,
      find_ensureUser_other l u v hv]

theorem guardDecLog_pos {x : Int} (h : x ≠ 0) : guardDecLog x = (x - 1, 0) := by
  unfold guardDecLog
  rw [if_pos h]

theorem clampSubLog_of_nonneg {x d : Int} (h : 0 ≤ x - d) :
    clampSubLog x d = (x - d, 0) := by
  unfold clampSubLog
  rw [if_neg (by omega)]

theorem shape_sub_nonneg {x0 d : Int} {b f : Nat} (hx : 0 ≤ x0) (hd : 0 ≤ d)
    (hbf : f < b) : 0 ≤ x0 + ((b : Int) - (f : Int)) * d - d := by
  have h1 : (0 : Int) ≤ ((b : Int) - (f : Int) - 1) * d :=
    mul_nonneg (by omega) hd
  have h2 : x0 + ((b : Int) - (f : Int)) * d - d
      = x0 + (((b : Int) - (f : Int) - 1) * d) := by ring
  rw [h2]
  exact add_nonneg hx h1

theorem adj_run_secs_begin (j : Job) :
    adj_run_secs Ev.jobBegin j = ((j.total_cpus * j.time_limit * 60 : Nat) : Int) := rfl

theorem countEv_cons_same (t : Ev) (l : List Ev) :
    countEv t (t :: l) = 1 + countEv t l := by
  simp [countEv]

theorem countEv_cons_other (s t : Ev) (h : s ≠ t) (l : List Ev) :
    countEv t (s :: l) = countEv t l := by
  simp [countEv, h]


theorem qos_adjust_add_eq (j : Job) (u0 m0 : Int) (q : QosUsage) :
    qos_adjust_limit_usage Ev.addSubmit j u0 m0 q
      = ({ q with
            grp_used_submit_jobs := q.grp_used_submit_jobs + 1,
            user_limit_list := updateFirstUser
              (ensureUser q.user_limit_list j.user_id) j.user_id
              userAddSubmit }, 0) := rfl

theorem qos_adjust_begin_eq (j : Job) (u0 m0 : Int) (q : QosUsage) :
    qos_adjust_limit_usage Ev.jobBegin j u0 m0 q
      = ({ q with
            grp_used_jobs := q.grp_used_jobs + 1,
            grp_used_cpus := q.grp_used_cpus + (j.total_cpus : Int),
            grp_used_mem := q.grp_used_mem + m0,
            grp_used_nodes := q.grp_used_nodes + (j.node_cnt : Int),
            grp_used_cpu_run_secs := q.grp_used_cpu_run_secs + u0,
            user_limit_list := updateFirstUser
              (ensureUser q.user_limit_list j.user_id) j.user_id
              (userBegin j) }, 0) := rfl

theorem qos_adjust_rem_eq (j : Job) (u0 m0 : Int) (q : QosUsage)
    (hg : q.grp_used_submit_jobs ≠ 0)
    (hu : (userView q.user_limit_list j.user_id).submit_jobs ≠ 0) :
    qos_adjust_limit_usage Ev.remSubmit j u0 m0 q
      = ({ q with
            grp_used_submit_jobs := q.grp_used_submit_jobs - 1,
            user_limit_list := updateFirstUser
              (ensureUser q.user_limit_list j.user_id) j.user_id
              userRemSubmit }, 0) := by
  simp only [qos_adjust_limit_usage, guardDecLog_pos hg, userView_ensure]
  rw [if_pos hu]
  rfl

theorem qos_adjust_fini_eq (j : Job) (u0 m0 : Int) (q : QosUsage)
    (h1 : 0 ≤ q.grp_used_jobs - 1)
    (h2 : 0 ≤ q.grp_used_cpus - (j.total_cpus : Int))
    (h3 : 0 ≤ q.grp_used_mem - m0)
    (h4 : 0 ≤ q.grp_used_nodes - (j.node_cnt : Int))
    (h5 : 0 ≤ (userView q.user_limit_list j.user_id).cpus - (j.total_cpus : Int))
    (h6 : 0 ≤ (userView q.user_limit_list j.user_id).jobs - 1)
    (h7 : 0 ≤ (userView q.user_limit_list j.user_id).nodes - (j.node_cnt : Int)) :
    qos_adjust_limit_usage Ev.jobFini j u0 m0 q
      = ({ q with
            grp_used_jobs := q.grp_used_jobs - 1,
            grp_used_cpus := q.grp_used_cpus - (j.total_cpus : Int),
            grp_used_mem := q.grp_used_mem - m0,
            grp_used_nodes := q.grp_used_nodes - (j.node_cnt : Int),
            user_limit_list := updateFirstUser
              (ensureUser q.user_limit_list j.user_id) j.user_id
              (userFiniVals
                ((userView q.user_limit_list j.user_id).cpus - (j.total_cpus : Int))
                ((userView q.user_limit_list j.user_id).jobs - 1)
                ((userView q.user_limit_list j.user_id).nodes - (j.node_cnt : Int))) },
       0) := by
  simp only [qos_adjust_limit_usage, userView_ensure,
    clampSubLog_of_nonneg h1, clampSubLog_of_nonneg h2,
    clampSubLog_of_nonneg h3, clampSubLog_of_nonneg h4,
    clampSubLog_of_nonneg h5, clampSubLog_of_nonneg h6,
    clampSubLog_of_nonneg h7]

theorem assoc_adjust_add_eq (j : Job) (u0 m0 : Int) (x : AssocUsage) :
    assoc_adjust_limit_usage Ev.addSubmit j u0 m0 x
      = ({ x with used_submit_jobs := x.used_submit_jobs + 1 }, 0) := rfl

theorem assoc_adjust_begin_eq (j : Job) (u0 m0 : Int) (x : AssocUsage) :
    assoc_adjust_limit_usage Ev.jobBegin j u0 m0 x
      = ({ x with
            used_jobs := x.used_jobs + 1,
            grp_used_cpus := x.grp_used_cpus + (j.total_cpus : Int),
            grp_used_mem := x.grp_used_mem + m0,
            grp_used_nodes := x.grp_used_nodes + (j.node_cnt : Int),
            grp_used_cpu_run_secs := x.grp_used_cpu_run_secs + u0 }, 0) := rfl

theorem assoc_adjust_rem_eq (j : Job) (u0 m0 : Int) (x : AssocUsage)
    (hg : x.used_submit_jobs ≠ 0) :
    assoc_adjust_limit_usage Ev.remSubmit j u0 m0 x
      = ({ x with used_submit_jobs := x.used_submit_jobs - 1 }, 0) := by
  simp only [assoc_adjust_limit_usage, guardDecLog_pos hg]

theorem assoc_adjust_fini_eq (j : Job) (u0 m0 : Int) (x : AssocUsage)
    (h1 : x.used_jobs ≠ 0)
    (h2 : 0 ≤ x.grp_used_cpus - (j.total_cpus : Int))
    (h3 : 0 ≤ x.grp_used_mem - m0)
    (h4 : 0 ≤ x.grp_used_nodes - (j.node_cnt : Int)) :
    assoc_adjust_limit_usage Ev.jobFini j u0 m0 x
      = ({ x with
            used_jobs := x.used_jobs - 1,
            grp_used_cpus := x.grp_used_cpus - (j.total_cpus : Int),
            grp_used_mem := x.grp_used_mem - m0,
            grp_used_nodes := x.grp_used_nodes - (j.node_cnt : Int) }, 0) := by
  simp only [assoc_adjust_limit_usage, guardDecLog_pos h1,
    clampSubLog_of_nonneg h2, clampSubLog_of_nonneg h3,
    clampSubLog_of_nonneg h4]


theorem QShape_step_add (q0 : QosUsage) (j : Job) (a r b f : Nat)
    (q : QosUsage) (hs : QShape q0 j a r b f q) :
    QShape q0 j (a + 1) r b f
      (qos_adjust_limit_usage Ev.addSubmit j (adj_run_secs Ev.addSubmit j)
        (adj_job_memory j) q).1 := by
  have hg : ∀ y : UsedLimits, (userAddSubmit y).uid = y.uid := fun y => rfl
  rw [qos_adjust_add_eq]
  refine ⟨?_, hs.jobs, hs.cpus, hs.mem, hs.nodes, hs.runsecs, hs.wall, hs.raw,
          ?_, ?_, ?_, ?_, ?_⟩
  · show q.grp_used_submit_jobs + 1
      = q0.grp_used_submit_jobs + ((a + 1 : Nat) : Int) - (r : Int)
    have h := hs.subs
    omega
  · show (userView (updateFirstUser (ensureUser q.user_limit_list j.user_id)
      j.user_id userAddSubmit)
      j.user_id).submit_jobs
      = (userView q0.user_limit_list j.user_id).submit_jobs
        + ((a + 1 : Nat) : Int) - (r : Int)
    rw [userView_update_ensure _ _ _ hg]
    show (userView q.user_limit_list j.user_id).submit_jobs + 1 = _
    have h := hs.usubs
    omega
  · show (userView (updateFirstUser (ensureUser q.user_limit_list j.user_id)
      j.user_id userAddSubmit)
      j.user_id).jobs = _
    rw [userView_update_ensure _ _ _ hg]
    exact hs.ujobs
  · show (userView (updateFirstUser (ensureUser q.user_limit_list j.user_id)
      j.user_id userAddSubmit)
      j.user_id).cpus = _
    rw [userView_update_ensure _ _ _ hg]
    exact hs.ucpus
  · show (userView (updateFirstUser (ensureUser q.user_limit_list j.user_id)
      j.user_id userAddSubmit)
      j.user_id).nodes = _
    rw [userView_update_ensure _ _ _ hg]
    exact hs.unodes
  · intro v hv
    show find_used_limits (updateFirstUser (ensureUser q.user_limit_list
      j.user_id) j.user_id userAddSubmit)
      v = _
    rw [find_update_ensure_other _ _ _ hg v hv]
    exact hs.uother v hv


theorem QShape_step_rem (q0 : QosUsage) (j : Job) (a r b f : Nat)
    (q : QosUsage) (hq0 : qosUsageNonneg q0) (har : r < a)
    (hs : QShape q0 j a r b f q) :
    QShape q0 j a (r + 1) b f
      (qos_adjust_limit_usage Ev.remSubmit j (adj_run_secs Ev.remSubmit j)
        (adj_job_memory j) q).1 := by
  have hg : ∀ y : UsedLimits, (userRemSubmit y).uid = y.uid := fun y => rfl
  have huv0 := userView_nonneg (u := j.user_id) hq0.2.2.2.2.2.2
  have hgrp : q.grp_used_submit_jobs ≠ 0 := by
    have h := hs.subs
    have h2 := hq0.2.1
    omega
  have hul : (userView q.user_limit_list j.user_id).submit_jobs ≠ 0 := by
    have h := hs.usubs
    have h2 := huv0.2.2.2
    omega
  rw [qos_adjust_rem_eq j _ _ q hgrp hul]
  refine ⟨?_, hs.jobs, hs.cpus, hs.mem, hs.nodes, hs.runsecs, hs.wall, hs.raw,
          ?_, ?_, ?_, ?_, ?_⟩
  · show q.grp_used_submit_jobs - 1
      = q0.grp_used_submit_jobs + (a : Int) - ((r + 1 : Nat) : Int)
    have h := hs.subs
    omega
  · show (userView (updateFirstUser (ensureUser q.user_limit_list j.user_id)
      j.user_id userRemSubmit) j.user_id).submit_jobs
      = (userView q0.user_limit_list j.user_id).submit_jobs
        + (a : Int) - ((r + 1 : Nat) : Int)
    rw [userView_update_ensure _ _ _ hg]
    show (userView q.user_limit_list j.user_id).submit_jobs - 1 = _
    have h := hs.usubs
    omega
  · show (userView (updateFirstUser (ensureUser q.user_limit_list j.user_id)
      j.user_id userRemSubmit) j.user_id).jobs = _
    rw [userView_update_ensure _ _ _ hg]
    exact hs.ujobs
  · show (userView (updateFirstUser (ensureUser q.user_limit_list j.user_id)
      j.user_id userRemSubmit) j.user_id).cpus = _
    rw [userView_update_ensure _ _ _ hg]
    exact hs.ucpus
  · show (userView (updateFirstUser (ensureUser q.user_limit_list j.user_id)
      j.user_id userRemSubmit) j.user_id).nodes = _
    rw [userView_update_ensure _ _ _ hg]
    exact hs.unodes
  · intro v hv
    show find_used_limits (updateFirstUser (ensureUser q.user_limit_list
      j.user_id) j.user_id userRemSubmit) v = _
    rw [find_update_ensure_other _ _ _ hg v hv]
    exact hs.uother v hv

theorem QShape_step_begin (q0 : QosUsage) (j : Job) (a r b f : Nat)
    (q : QosUsage) (hs : QShape q0 j a r b f q) :
    QShape q0 j a r (b + 1) f
      (qos_adjust_limit_usage Ev.jobBegin j (adj_run_secs Ev.jobBegin j)
        (adj_job_memory j) q).1 := by
  have hg : ∀ y : UsedLimits, (userBegin j y).uid = y.uid := fun y => rfl
  rw [qos_adjust_begin_eq]
  refine ⟨hs.subs, ?_, ?_, ?_, ?_, ?_, hs.wall, hs.raw, ?_, ?_, ?_, ?_, ?_⟩
  · show q.grp_used_jobs + 1
      = q0.grp_used_jobs + ((b + 1 : Nat) : Int) - (f : Int)
    have h := hs.jobs
    omega
  · show q.grp_used_cpus + (j.total_cpus : Int)
      = q0.grp_used_cpus
        + (((b + 1 : Nat) : Int) - (f : Int)) * (j.total_cpus : Int)
    rw [hs.cpus]
    push_cast
    ring
  · show q.grp_used_mem + adj_job_memory j
      = q0.grp_used_mem + (((b + 1 : Nat) : Int) - (f : Int)) * adj_job_memory j
    rw [hs.mem]
    push_cast
    ring
  · show q.grp_used_nodes + (j.node_cnt : Int)
      = q0.grp_used_nodes
        + (((b + 1 : Nat) : Int) - (f : Int)) * (j.node_cnt : Int)
    rw [hs.nodes]
    push_cast
    ring
  · show q.grp_used_cpu_run_secs + adj_run_secs Ev.jobBegin j
      = q0.grp_used_cpu_run_secs
        + ((b + 1 : Nat) : Int) * ((j.total_cpus * j.time_limit * 60 : Nat) : Int)
    rw [adj_run_secs_begin, hs.runsecs]
    push_cast
    ring
  · show (userView (updateFirstUser (ensureUser q.user_limit_list j.user_id)
      j.user_id (userBegin j)) j.user_id).submit_jobs = _
    rw [userView_update_ensure _ _ _ hg]
    exact hs.usubs
  · show (userView (updateFirstUser (ensureUser q.user_limit_list j.user_id)
      j.user_id (userBegin j)) j.user_id).jobs
      = (userView q0.user_limit_list j.user_id).jobs
        + ((b + 1 : Nat) : Int) - (f : Int)
    rw [userView_update_ensure _ _ _ hg]
    show (userView q.user_limit_list j.user_id).jobs + 1 = _
    have h := hs.ujobs
    omega
  · show (userView (updateFirstUser (ensureUser q.user_limit_list j.user_id)
      j.user_id (userBegin j)) j.user_id).cpus
      = (userView q0.user_limit_list j.user_id).cpus
        + (((b + 1 : Nat) : Int) - (f : Int)) * (j.total_cpus : Int)
    rw [userView_update_ensure _ _ _ hg]
    show (userView q.user_limit_list j.user_id).cpus + (j.total_cpus : Int) = _
    rw [hs.ucpus]
    push_cast
    ring
  · show (userView (updateFirstUser (ensureUser q.user_limit_list j.user_id)
      j.user_id (userBegin j)) j.user_id).nodes
      = (userView q0.user_limit_list j.user_id).nodes
        + (((b + 1 : Nat) : Int) - (f : Int)) * (j.node_cnt : Int)
    rw [userView_update_ensure _ _ _ hg]
    show (userView q.user_limit_list j.user_id).nodes + (j.node_cnt : Int) = _
    rw [hs.unodes]
    push_cast
    ring
  · intro v hv
    show find_used_limits (updateFirstUser (ensureUser q.user_limit_list
      j.user_id) j.user_id (userBegin j)) v = _
    rw [find_update_ensure_other _ _ _ hg v hv]
    exact hs.uother v hv


theorem QShape_step_fini (q0 : QosUsage) (j : Job) (a r b f : Nat)
    (q : QosUsage) (hq0 : qosUsageNonneg q0) (hbf : f < b)
    (hs : QShape q0 j a r b f q) :
    QShape q0 j a r b (f + 1)
      (qos_adjust_limit_usage Ev.jobFini j (adj_run_secs Ev.jobFini j)
        (adj_job_memory j) q).1 := by
  have huv0 := userView_nonneg (u := j.user_id) hq0.2.2.2.2.2.2
  have h1 : 0 ≤ q.grp_used_jobs - 1 := by
    have h := hs.jobs
    have h2 := hq0.1
    omega
  have h2 : 0 ≤ q.grp_used_cpus - (j.total_cpus : Int) := by
    rw [hs.cpus]
    exact shape_sub_nonneg hq0.2.2.1 (Int.natCast_nonneg _) hbf
  have h3 : 0 ≤ q.grp_used_mem - adj_job_memory j := by
    rw [hs.mem]
    exact shape_sub_nonneg hq0.2.2.2.1 (adj_job_memory_nonneg j) hbf
  have h4 : 0 ≤ q.grp_used_nodes - (j.node_cnt : Int) := by
    rw [hs.nodes]
    exact shape_sub_nonneg hq0.2.2.2.2.1 (Int.natCast_nonneg _) hbf
  have h5 : 0 ≤ (userView q.user_limit_list j.user_id).cpus - (j.total_cpus : Int) := by
    rw [hs.ucpus]
    exact shape_sub_nonneg huv0.2.1 (Int.natCast_nonneg _) hbf
  have h6 : 0 ≤ (userView q.user_limit_list j.user_id).jobs - 1 := by
    have h := hs.ujobs
    have h2 := huv0.1
    omega
  have h7 : 0 ≤ (userView q.user_limit_list j.user_id).nodes - (j.node_cnt : Int) := by
    rw [hs.unodes]
    exact shape_sub_nonneg huv0.2.2.1 (Int.natCast_nonneg _) hbf
  have hg : ∀ y : UsedLimits,
      (userFiniVals ((userView q.user_limit_list j.user_id).cpus - (j.total_cpus : Int))
        ((userView q.user_limit_list j.user_id).jobs - 1)
        ((userView q.user_limit_list j.user_id).nodes - (j.node_cnt : Int)) y).uid
      = y.uid := fun y => rfl
  rw [qos_adjust_fini_eq j _ _ q h1 h2 h3 h4 h5 h6 h7]
  refine ⟨hs.subs, ?_, ?_, ?_, ?_, hs.runsecs, hs.wall, hs.raw,
          ?_, ?_, ?_, ?_, ?_⟩
  · show q.grp_used_jobs - 1
      = q0.grp_used_jobs + (b : Int) - ((f + 1 : Nat) : Int)
    have h := hs.jobs
    omega
  · show q.grp_used_cpus - (j.total_cpus : Int)
      = q0.grp_used_cpus
        + ((b : Int) - ((f + 1 : Nat) : Int)) * (j.total_cpus : Int)
    rw [hs.cpus]
    push_cast
    ring
  · show q.grp_used_mem - adj_job_memory j
      = q0.grp_used_mem + ((b : Int) - ((f + 1 : Nat) : Int)) * adj_job_memory j
    rw [hs.mem]
    push_cast
    ring
  · show q.grp_used_nodes - (j.node_cnt : Int)
      = q0.grp_used_nodes
        + ((b : Int) - ((f + 1 : Nat) : Int)) * (j.node_cnt : Int)
    rw [hs.nodes]
    push_cast
    ring
  · show (userView (updateFirstUser (ensureUser q.user_limit_list j.user_id)
      j.user_id (userFiniVals
        ((userView q.user_limit_list j.user_id).cpus - (j.total_cpus : Int))
        ((userView q.user_limit_list j.user_id).jobs - 1)
        ((userView q.user_limit_list j.user_id).nodes - (j.node_cnt : Int))))
      j.user_id).submit_jobs = _
    rw [userView_update_ensure _ _ _ hg]
    exact hs.usubs
  · show (userView (updateFirstUser (ensureUser q.user_limit_list j.user_id)
      j.user_id (userFiniVals
        ((userView q.user_limit_list j.user_id).cpus - (j.total_cpus : Int))
        ((userView q.user_limit_list j.user_id).jobs - 1)
        ((userView q.user_limit_list j.user_id).nodes - (j.node_cnt : Int))))
      j.user_id).jobs
      = (userView q0.user_limit_list j.user_id).jobs
        + (b : Int) - ((f + 1 : Nat) : Int)
    rw [userView_update_ensure _ _ _ hg]
    show (userView q.user_limit_list j.user_id).jobs - 1 = _
    have h := hs.ujobs
    omega
  · show (userView (updateFirstUser (ensureUser q.user_limit_list j.user_id)
      j.user_id (userFiniVals
        ((userView q.user_limit_list j.user_id).cpus - (j.total_cpus : Int))
        ((userView q.user_limit_list j.user_id).jobs - 1)
        ((userView q.user_limit_list j.user_id).nodes - (j.node_cnt : Int))))
      j.user_id).cpus
      = (userView q0.user_limit_list j.user_id).cpus
        + ((b : Int) - ((f + 1 : Nat) : Int)) * (j.total_cpus : Int)
    rw [userView_update_ensure _ _ _ hg]
    show (userView q.user_limit_list j.user_id).cpus - (j.total_cpus : Int) = _
    rw [hs.ucpus]
    push_cast
    ring
  · show (userView (updateFirstUser (ensureUser q.user_limit_list j.user_id)
      j.user_id (userFiniVals
        ((userView q.user_limit_list j.user_id).cpus - (j.total_cpus : Int))
        ((userView q.user_limit_list j.user_id).jobs - 1)
        ((userView q.user_limit_list j.user_id).nodes - (j.node_cnt : Int))))
      j.user_id).nodes
      = (userView q0.user_limit_list j.user_id).nodes
        + ((b : Int) - ((f + 1 : Nat) : Int)) * (j.node_cnt : Int)
    rw [userView_update_ensure _ _ _ hg]
    show (userView q.user_limit_list j.user_id).nodes - (j.node_cnt : Int) = _
    rw [hs.unodes]
    push_cast
    ring
  · intro v hv
    show find_used_limits (updateFirstUser (ensureUser q.user_limit_list
      j.user_id) j.user_id (userFiniVals
        ((userView q.user_limit_list j.user_id).cpus - (j.total_cpus : Int))
        ((userView q.user_limit_list j.user_id).jobs - 1)
        ((userView q.user_limit_list j.user_id).nodes - (j.node_cnt : Int)))) v = _
    rw [find_update_ensure_other _ _ _ hg v hv]
    exact hs.uother v hv


theorem AShape_step_add (a0 : AssocUsage) (j : Job) (a r b f : Nat)
    (x : AssocUsage) (hs : AShape a0 j a r b f x) :
    AShape a0 j (a + 1) r b f
      (assoc_adjust_limit_usage Ev.addSubmit j (adj_run_secs Ev.addSubmit j)
        (adj_job_memory j) x).1 := by
  rw [assoc_adjust_add_eq]
  refine ⟨?_, hs.jobs, hs.cpus, hs.mem, hs.nodes, hs.runsecs, hs.wall, hs.raw⟩
  show x.used_submit_jobs + 1
    = a0.used_submit_jobs + ((a + 1 : Nat) : Int) - (r : Int)
  have h := hs.subs
  omega

theorem AShape_step_rem (a0 : AssocUsage) (j : Job) (a r b f : Nat)
    (x : AssocUsage) (ha0 : assocUsageNonneg a0) (har : r < a)
    (hs : AShape a0 j a r b f x) :
    AShape a0 j a (r + 1) b f
      (assoc_adjust_limit_usage Ev.remSubmit j (adj_run_secs Ev.remSubmit j)
        (adj_job_memory j) x).1 := by
  have hg : x.used_submit_jobs ≠ 0 := by
    have h := hs.subs
    have h2 := ha0.2.1
    omega
  rw [assoc_adjust_rem_eq j _ _ x hg]
  refine ⟨?_, hs.jobs, hs.cpus, hs.mem, hs.nodes, hs.runsecs, hs.wall, hs.raw⟩
  show x.used_submit_jobs - 1
    = a0.used_submit_jobs + (a : Int) - ((r + 1 : Nat) : Int)
  have h := hs.subs
  omega

theorem AShape_step_begin (a0 : AssocUsage) (j : Job) (a r b f : Nat)
    (x : AssocUsage) (hs : AShape a0 j a r b f x) :
    AShape a0 j a r (b + 1) f
      (assoc_adjust_limit_usage Ev.jobBegin j (adj_run_secs Ev.jobBegin j)
        (adj_job_memory j) x).1 := by
  rw [assoc_adjust_begin_eq]
  refine ⟨hs.subs, ?_, ?_, ?_, ?_, ?_, hs.wall, hs.raw⟩
  · show x.used_jobs + 1 = a0.used_jobs + ((b + 1 : Nat) : Int) - (f : Int)
    have h := hs.jobs
    omega
  · show x.grp_used_cpus + (j.total_cpus : Int)
      = a0.grp_used_cpus
        + (((b + 1 : Nat) : Int) - (f : Int)) * (j.total_cpus : Int)
    rw [hs.cpus]
    push_cast
    ring
  · show x.grp_used_mem + adj_job_memory j
      = a0.grp_used_mem + (((b + 1 : Nat) : Int) - (f : Int)) * adj_job_memory j
    rw [hs.mem]
    push_cast
    ring
  · show x.grp_used_nodes + (j.node_cnt : Int)
      = a0.grp_used_nodes
        + (((b + 1 : Nat) : Int) - (f : Int)) * (j.node_cnt : Int)
    rw [hs.nodes]
    push_cast
    ring
  · show x.grp_used_cpu_run_secs + adj_run_secs Ev.jobBegin j
      = a0.grp_used_cpu_run_secs
        + ((b + 1 : Nat) : Int) * ((j.total_cpus * j.time_limit * 60 : Nat) : Int)
    rw [adj_run_secs_begin, hs.runsecs]
    push_cast
    ring

theorem AShape_step_fini (a0 : AssocUsage) (j : Job) (a r b f : Nat)
    (x : AssocUsage) (ha0 : assocUsageNonneg a0) (hbf : f < b)
    (hs : AShape a0 j a r b f x) :
    AShape a0 j a r b (f + 1)
      (assoc_adjust_limit_usage Ev.jobFini j (adj_run_secs Ev.jobFini j)
        (adj_job_memory j) x).1 := by
  have h1 : x.used_jobs ≠ 0 := by
    have h := hs.jobs
    have h2 := ha0.1
    omega
  have h2 : 0 ≤ x.grp_used_cpus - (j.total_cpus : Int) := by
    rw [hs.cpus]
    exact shape_sub_nonneg ha0.2.2.1 (Int.natCast_nonneg _) hbf
  have h3 : 0 ≤ x.grp_used_mem - adj_job_memory j := by
    rw [hs.mem]
    exact shape_sub_nonneg ha0.2.2.2.1 (adj_job_memory_nonneg j) hbf
  have h4 : 0 ≤ x.grp_used_nodes - (j.node_cnt : Int) := by
    rw [hs.nodes]
    exact shape_sub_nonneg ha0.2.2.2.2.1 (Int.natCast_nonneg _) hbf
  rw [assoc_adjust_fini_eq j _ _ x h1 h2 h3 h4]
  refine ⟨hs.subs, ?_, ?_, ?_, ?_, hs.runsecs, hs.wall, hs.raw⟩
  · show x.used_jobs - 1 = a0.used_jobs + (b : Int) - ((f + 1 : Nat) : Int)
    have h := hs.jobs
    omega
  · show x.grp_used_cpus - (j.total_cpus : Int)
      = a0.grp_used_cpus
        + ((b : Int) - ((f + 1 : Nat) : Int)) * (j.total_cpus : Int)
    rw [hs.cpus]
    push_cast
    ring
  · show x.grp_used_mem - adj_job_memory j
      = a0.grp_used_mem + ((b : Int) - ((f + 1 : Nat) : Int)) * adj_job_memory j
    rw [hs.mem]
    push_cast
    ring
  · show x.grp_used_nodes - (j.node_cnt : Int)
      = a0.grp_used_nodes
        + ((b : Int) - ((f + 1 : Nat) : Int)) * (j.node_cnt : Int)
    rw [hs.nodes]
    push_cast
    ring


theorem walk_AShape_add (j : Job) (c0 c : List AssocUsage) (a r b f : Nat)
    (h : List.Forall₂ (fun x y => AShape x j a r b f y) c0 c) :
    List.Forall₂ (fun x y => AShape x j (a + 1) r b f y) c0
      (adjust_assoc_walk Ev.addSubmit j (adj_run_secs Ev.addSubmit j)
        (adj_job_memory j) c).1 := by
  induction h with
  | nil => exact List.Forall₂.nil
  | cons hxy hrest ih =>
    simp only [adjust_assoc_walk]
    exact List.Forall₂.cons (AShape_step_add _ _ _ _ _ _ _ hxy) ih

theorem walk_AShape_rem (j : Job) (c0 c : List AssocUsage) (a r b f : Nat)
    (hnn : ∀ z ∈ c0, assocUsageNonneg z) (har : r < a)
    (h : List.Forall₂ (fun x y => AShape x j a r b f y) c0 c) :
    List.Forall₂ (fun x y => AShape x j a (r + 1) b f y) c0
      (adjust_assoc_walk Ev.remSubmit j (adj_run_secs Ev.remSubmit j)
        (adj_job_memory j) c).1 := by
  induction h with
  | nil => exact List.Forall₂.nil
  | @cons x y l0 l hxy hrest ih =>
    simp only [adjust_assoc_walk]
    exact List.Forall₂.cons
      (AShape_step_rem _ _ _ _ _ _ _ (hnn x (List.mem_cons_self x l0)) har hxy)
      (ih (fun z hz => hnn z (List.mem_cons_of_mem x hz)))

theorem walk_AShape_begin (j : Job) (c0 c : List AssocUsage) (a r b f : Nat)
    (h : List.Forall₂ (fun x y => AShape x j a r b f y) c0 c) :
    List.Forall₂ (fun x y => AShape x j a r (b + 1) f y) c0
      (adjust_assoc_walk Ev.jobBegin j (adj_run_secs Ev.jobBegin j)
        (adj_job_memory j) c).1 := by
  induction h with
  | nil => exact List.Forall₂.nil
  | cons hxy hrest ih =>
    simp only [adjust_assoc_walk]
    exact List.Forall₂.cons (AShape_step_begin _ _ _ _ _ _ _ hxy) ih

theorem walk_AShape_fini (j : Job) (c0 c : List AssocUsage) (a r b f : Nat)
    (hnn : ∀ z ∈ c0, assocUsageNonneg z) (hbf : f < b)
    (h : List.Forall₂ (fun x y => AShape x j a r b f y) c0 c) :
    List.Forall₂ (fun x y => AShape x j a r b (f + 1) y) c0
      (adjust_assoc_walk Ev.jobFini j (adj_run_secs Ev.jobFini j)
        (adj_job_memory j) c).1 := by
  induction h with
  | nil => exact List.Forall₂.nil
  | @cons x y l0 l hxy hrest ih =>
    simp only [adjust_assoc_walk]
    exact List.Forall₂.cons
      (AShape_step_fini _ _ _ _ _ _ _ (hnn x (List.mem_cons_self x l0)) hbf hxy)
      (ih (fun z hz => hnn z (List.mem_cons_of_mem x hz)))

theorem WShape_step_add (w0 : World) (j : Job) (a r b f : Nat) (w : World)
    (hs : WShape w0 j a r b f w) :
    WShape w0 j (a + 1) r b f (adjust_limit_usage true Ev.addSubmit j w) := by
  obtain ⟨h1, h2, h3⟩ := hs
  unfold adjust_limit_usage
  rw [if_neg (by simp)]
  refine ⟨?_, ?_, ?_⟩
  · cases hq : w.qos1 with
    | none =>
      rw [hq] at h1
      simpa [adjust_qos_opt, optQShape] using h1
    | some qv =>
      rw [hq] at h1
      obtain ⟨q0, hq0, hsh⟩ := h1
      exact ⟨q0, hq0, QShape_step_add q0 j a r b f qv hsh⟩
  · cases hq : w.qos2 with
    | none =>
      rw [hq] at h2
      simpa [adjust_qos_opt, optQShape] using h2
    | some qv =>
      rw [hq] at h2
      obtain ⟨q0, hq0, hsh⟩ := h2
      exact ⟨q0, hq0, QShape_step_add q0 j a r b f qv hsh⟩
  · exact walk_AShape_add j w0.chain w.chain a r b f h3


theorem WShape_step_rem (w0 : World) (j : Job) (a r b f : Nat) (w : World)
    (h0 : worldNonneg w0) (har : r < a) (hs : WShape w0 j a r b f w) :
    WShape w0 j a (r + 1) b f (adjust_limit_usage true Ev.remSubmit j w) := by
  obtain ⟨h1, h2, h3⟩ := hs
  obtain ⟨hn1, hn2, hn3⟩ := h0
  unfold adjust_limit_usage
  rw [if_neg (by simp)]
  refine ⟨?_, ?_, ?_⟩
  · cases hq : w.qos1 with
    | none =>
      rw [hq] at h1
      simpa [adjust_qos_opt, optQShape] using h1
    | some qv =>
      rw [hq] at h1
      obtain ⟨q0, hq0, hsh⟩ := h1
      have hqn : qosUsageNonneg q0 := by
        rw [hq0] at hn1
        exact hn1
      exact ⟨q0, hq0, QShape_step_rem q0 j a r b f qv hqn har hsh⟩
  · cases hq : w.qos2 with
    | none =>
      rw [hq] at h2
      simpa [adjust_qos_opt, optQShape] using h2
    | some qv =>
      rw [hq] at h2
      obtain ⟨q0, hq0, hsh⟩ := h2
      have hqn : qosUsageNonneg q0 := by
        rw [hq0] at hn2
        exact hn2
      exact ⟨q0, hq0, QShape_step_rem q0 j a r b f qv hqn har hsh⟩
  · exact walk_AShape_rem j w0.chain w.chain a r b f hn3 har h3

theorem WShape_step_begin (w0 : World) (j : Job) (a r b f : Nat) (w : World)
    (hs : WShape w0 j a r b f w) :
    WShape w0 j a r (b + 1) f (adjust_limit_usage true Ev.jobBegin j w) := by
  obtain ⟨h1, h2, h3⟩ := hs
  unfold adjust_limit_usage
  rw [if_neg (by simp)]
  refine ⟨?_, ?_, ?_⟩
  · cases hq : w.qos1 with
    | none =>
      rw [hq] at h1
      simpa [adjust_qos_opt, optQShape] using h1
    | some qv =>
      rw [hq] at h1
      obtain ⟨q0, hq0, hsh⟩ := h1
      exact ⟨q0, hq0, QShape_step_begin q0 j a r b f qv hsh⟩
  · cases hq : w.qos2 with
    | none =>
      rw [hq] at h2
      simpa [adjust_qos_opt, optQShape] using h2
    | some qv =>
      rw [hq] at h2
      obtain ⟨q0, hq0, hsh⟩ := h2
      exact ⟨q0, hq0, QShape_step_begin q0 j a r b f qv hsh⟩
  · exact walk_AShape_begin j w0.chain w.chain a r b f h3

theorem WShape_step_fini (w0 : World) (j : Job) (a r b f : Nat) (w : World)
    (h0 : worldNonneg w0) (hbf : f < b) (hs : WShape w0 j a r b f w) :
    WShape w0 j a r b (f + 1) (adjust_limit_usage true Ev.jobFini j w) := by
  obtain ⟨h1, h2, h3⟩ := hs
  obtain ⟨hn1, hn2, hn3⟩ := h0
  unfold adjust_limit_usage
  rw [if_neg (by simp)]
  refine ⟨?_, ?_, ?_⟩
  · cases hq : w.qos1 with
    | none =>
      rw [hq] at h1
      simpa [adjust_qos_opt, optQShape] using h1
    | some qv =>
      rw [hq] at h1
      obtain ⟨q0, hq0, hsh⟩ := h1
      have hqn : qosUsageNonneg q0 := by
        rw [hq0] at hn1
        exact hn1
      exact ⟨q0, hq0, QShape_step_fini q0 j a r b f qv hqn hbf hsh⟩
  · cases hq : w.qos2 with
    | none =>
      rw [hq] at h2
      simpa [adjust_qos_opt, optQShape] using h2
    | some qv =>
      rw [hq] at h2
      obtain ⟨q0, hq0, hsh⟩ := h2
      have hqn : qosUsageNonneg q0 := by
        rw [hq0] at hn2
        exact hn2
      exact ⟨q0, hq0, QShape_step_fini q0 j a r b f qv hqn hbf hsh⟩
  · exact walk_AShape_fini j w0.chain w.chain a r b f hn3 hbf h3


theorem QShape_refl (q : QosUsage) (j : Job) : QShape q j 0 0 0 0 q := by
  refine ⟨?_, ?_, ?_, ?_, ?_, ?_, rfl, rfl, ?_, ?_, ?_, ?_, fun v _ => rfl⟩ <;>
    simp

theorem AShape_refl (x : AssocUsage) (j : Job) : AShape x j 0 0 0 0 x := by
  refine ⟨?_, ?_, ?_, ?_, ?_, ?_, rfl, rfl⟩ <;> simp

theorem WShape_refl (w : World) (j : Job) : WShape w j 0 0 0 0 w := by
  refine ⟨?_, ?_, ?_⟩
  · cases w.qos1 with
    | none => exact rfl
    | some q => exact ⟨q, rfl, QShape_refl q j⟩
  · cases w.qos2 with
    | none => exact rfl
    | some q => exact ⟨q, rfl, QShape_refl q j⟩
  · exact List.forall₂_same.mpr (fun x _ => AShape_refl x j)

theorem WShape_seq (j : Job) (S : List Ev) :
    ∀ (a r b f : Nat) (w0 w : World), worldNonneg w0 →
      WShape w0 j a r b f w → prefixOk a r b f S = true →
      WShape w0 j (a + countEv Ev.addSubmit S) (r + countEv Ev.remSubmit S)
        (b + countEv Ev.jobBegin S) (f + countEv Ev.jobFini S)
        (applyEvents true j S w) := by
  induction S with
  | nil =>
    intro a r b f w0 w h0 hs hp
    simpa [countEv, applyEvents] using hs
  | cons t rest ih =>
    intro a r b f w0 w h0 hs hp
    cases t with
    | addSubmit =>
      have hp2 : prefixOk (a + 1) r b f rest = true := hp
      have hrec := ih (a + 1) r b f w0 _ h0
        (WShape_step_add w0 j a r b f w hs) hp2
      have e1 : a + countEv Ev.addSubmit (Ev.addSubmit :: rest)
          = a + 1 + countEv Ev.addSubmit rest := by
        rw [countEv_cons_same]
        omega
      have e2 : r + countEv Ev.remSubmit (Ev.addSubmit :: rest)
          = r + countEv Ev.remSubmit rest := by
        rw [countEv_cons_other Ev.addSubmit Ev.remSubmit (by decide)]
      have e3 : b + countEv Ev.jobBegin (Ev.addSubmit :: rest)
          = b + countEv Ev.jobBegin rest := by
        rw [countEv_cons_other Ev.addSubmit Ev.jobBegin (by decide)]
      have e4 : f + countEv Ev.jobFini (Ev.addSubmit :: rest)
          = f + countEv Ev.jobFini rest := by
        rw [countEv_cons_other Ev.addSubmit Ev.jobFini (by decide)]
      rw [e1, e2, e3, e4]
      exact hrec
    | remSubmit =>
      have hp2 : (decide (r < a) && prefixOk a (r + 1) b f rest) = true := hp
      obtain ⟨hd, hrest⟩ := Bool.and_eq_true_iff.mp hp2
      have har : r < a := of_decide_eq_true hd
      have hrec := ih a (r + 1) b f w0 _ h0
        (WShape_step_rem w0 j a r b f w h0 har hs) hrest
      have e1 : a + countEv Ev.addSubmit (Ev.remSubmit :: rest)
          = a + countEv Ev.addSubmit rest := by
        rw [countEv_cons_other Ev.remSubmit Ev.addSubmit (by decide)]
      have e2 : r + countEv Ev.remSubmit (Ev.remSubmit :: rest)
          = r + 1 + countEv Ev.remSubmit rest := by
        rw [countEv_cons_same]
        omega
      have e3 : b + countEv Ev.jobBegin (Ev.remSubmit :: rest)
          = b + countEv Ev.jobBegin rest := by
        rw [countEv_cons_other Ev.remSubmit Ev.jobBegin (by decide)]
      have e4 : f + countEv Ev.jobFini (Ev.remSubmit :: rest)
          = f + countEv Ev.jobFini rest := by
        rw [countEv_cons_other Ev.remSubmit Ev.jobFini (by decide)]
      rw [e1, e2, e3, e4]
      exact hrec
    | jobBegin =>
      have hp2 : prefixOk a r (b + 1) f rest = true := hp
      have hrec := ih a r (b + 1) f w0 _ h0
        (WShape_step_begin w0 j a r b f w hs) hp2
      have e1 : a + countEv Ev.addSubmit (Ev.jobBegin :: rest)
          = a + countEv Ev.addSubmit rest := by
        rw [countEv_cons_other Ev.jobBegin Ev.addSubmit (by decide)]
      have e2 : r + countEv Ev.remSubmit (Ev.jobBegin :: rest)
          = r + countEv Ev.remSubmit rest := by
        rw [countEv_cons_other Ev.jobBegin Ev.remSubmit (by decide)]
      have e3 : b + countEv Ev.jobBegin (Ev.jobBegin :: rest)
          = b + 1 + countEv Ev.jobBegin rest := by
        rw [countEv_cons_same]
        omega
      have e4 : f + countEv Ev.jobFini (Ev.jobBegin :: rest)
          = f + countEv Ev.jobFini rest := by
        rw [countEv_cons_other Ev.jobBegin Ev.jobFini (by decide)]
      rw [e1, e2, e3, e4]
      exact hrec
    | jobFini =>
      have hp2 : (decide (f < b) && prefixOk a r b (f + 1) rest) = true := hp
      obtain ⟨hd, hrest⟩ := Bool.and_eq_true_iff.mp hp2
      have hbf : f < b := of_decide_eq_true hd
      have hrec := ih a r b (f + 1) w0 _ h0
        (WShape_step_fini w0 j a r b f w h0 hbf hs) hrest
      have e1 : a + countEv Ev.addSubmit (Ev.jobFini :: rest)
          = a + countEv Ev.addSubmit rest := by
        rw [countEv_cons_other Ev.jobFini Ev.addSubmit (by decide)]
      have e2 : r + countEv Ev.remSubmit (Ev.jobFini :: rest)
          = r + countEv Ev.remSubmit rest := by
        rw [countEv_cons_other Ev.jobFini Ev.remSubmit (by decide)]
      have e3 : b + countEv Ev.jobBegin (Ev.jobFini :: rest)
          = b + countEv Ev.jobBegin rest := by
        rw [countEv_cons_other Ev.jobFini Ev.jobBegin (by decide)]
      have e4 : f + countEv Ev.jobFini (Ev.jobFini :: rest)
          = f + 1 + countEv Ev.jobFini rest := by
        rw [countEv_cons_same]
        omega
      rw [e1, e2, e3, e4]
      exact hrec


theorem QShape_to_restored {q0 : QosUsage} {j : Job} {n m : Nat}
    {q : QosUsage} (hs : QShape q0 j n n m m q) : QRestored q0 j m q := by
  obtain ⟨e1, e2, e3, e4, e5, e6, e7, e8, e9, e10, e11, e12, e13⟩ := hs
  refine ⟨?_, ?_, ?_, ?_, ?_, e6, e7, e8, ?_, ?_, ?_, ?_, e13⟩
  · omega
  · omega
  · rw [e3]
    simp
  · rw [e4]
    simp
  · rw [e5]
    simp
  · omega
  · omega
  · rw [e11]
    simp
  · rw [e12]
    simp

theorem AShape_to_restored {a0 : AssocUsage} {j : Job} {n m : Nat}
    {x : AssocUsage} (hs : AShape a0 j n n m m x) : ARestored a0 j m x := by
  obtain ⟨e1, e2, e3, e4, e5, e6, e7, e8⟩ := hs
  refine ⟨?_, ?_, ?_, ?_, ?_, e6, e7, e8⟩
  · omega
  · omega
  · rw [e3]
    simp
  · rw [e4]
    simp
  · rw [e5]
    simp

theorem WShape_to_restored {w0 : World} {j : Job} {n m : Nat} {w : World}
    (hs : WShape w0 j n n m m w) : WRestored w0 j m w := by
  obtain ⟨h1, h2, h3⟩ := hs
  refine ⟨?_, ?_, ?_⟩
  · cases hq : w.qos1 with
    | none =>
      rw [hq] at h1
      exact h1
    | some qv =>
      rw [hq] at h1
      obtain ⟨q0, hq0, hsh⟩ := h1
      exact ⟨q0, hq0, QShape_to_restored hsh⟩
  · cases hq : w.qos2 with
    | none =>
      rw [hq] at h2
      exact h2
    | some qv =>
      rw [hq] at h2
      obtain ⟨q0, hq0, hsh⟩ := h2
      exact ⟨q0, hq0, QShape_to_restored hsh⟩
  · exact List.Forall₂.imp (fun x y hxy => AShape_to_restored hxy) h3

/-- The original C1 wording fails: after the balanced, prefix-sound
lifecycle sequence [JOB_BEGIN, JOB_FINI], the QOS's and the association's
grp_used_cpu_run_secs stand at total_cpus * time_limit * 60 = 360 instead
of returning to their initial value 0: JOB_FINI never subtracts the
quantity that JOB_BEGIN added. -/
theorem C1_counterexample :
    (applyEvents true jobS5 [Ev.jobBegin, Ev.jobFini] worldS5).qos1.map
        (fun q => q.grp_used_cpu_run_secs) = some 360
    ∧ ((applyEvents true jobS5 [Ev.jobBegin, Ev.jobFini] worldS5).chain.map
        (fun x => x.grp_used_cpu_run_secs)) = [360]
    ∧ worldS5.qos1.map (fun q => q.grp_used_cpu_run_secs) = some 0
    ∧ worldS5.chain.map (fun x => x.grp_used_cpu_run_secs) = [0]
    ∧ ((360 : Int) = 0 → False) := by
  decide

/-- C1 (amended): for every job, every world with non-negative counters
and every prefix-sound balanced lifecycle sequence (every REM_SUBMIT
matched by an earlier ADD_SUBMIT and equal in count, every JOB_FINI
matched by an earlier JOB_BEGIN and equal in count), the usage adjuster
returns every group and per-user counter of both QOS slots and of every
association of the chain to its initial value — EXCEPT
grp_used_cpu_run_secs, which ends at its initial value plus
countEv JOB_BEGIN * (total_cpus * time_limit * 60), because JOB_FINI
never subtracts what JOB_BEGIN added (usage_raw and wall are untouched
throughout). -/
theorem C1_balanced_lifecycle (j : Job) (S : List Ev) (w : World)
    (h0 : worldNonneg w) (hpre : prefixOk 0 0 0 0 S = true)
    (hbal1 : countEv Ev.remSubmit S = countEv Ev.addSubmit S)
    (hbal2 : countEv Ev.jobFini S = countEv Ev.jobBegin S) :
    WRestored w j (countEv Ev.jobBegin S) (applyEvents true j S w) := by
  have h := WShape_seq j S 0 0 0 0 w w h0 (WShape_refl w j) hpre
  simp only [Nat.zero_add] at h
  rw [hbal1, hbal2] at h
  exact WShape_to_restored h

theorem C1_balanced_lifecycle_witness :
    worldNonneg worldS5
    ∧ prefixOk 0 0 0 0 [Ev.addSubmit, Ev.jobBegin, Ev.jobFini, Ev.remSubmit]
        = true
    ∧ countEv Ev.remSubmit [Ev.addSubmit, Ev.jobBegin, Ev.jobFini, Ev.remSubmit]
        = countEv Ev.addSubmit [Ev.addSubmit, Ev.jobBegin, Ev.jobFini, Ev.remSubmit]
    ∧ countEv Ev.jobFini [Ev.addSubmit, Ev.jobBegin, Ev.jobFini, Ev.remSubmit]
        = countEv Ev.jobBegin [Ev.addSubmit, Ev.jobBegin, Ev.jobFini, Ev.remSubmit]
    ∧ WRestored worldS5 jobS5
        (countEv Ev.jobBegin [Ev.addSubmit, Ev.jobBegin, Ev.jobFini, Ev.remSubmit])
        (applyEvents true jobS5
          [Ev.addSubmit, Ev.jobBegin, Ev.jobFini, Ev.remSubmit] worldS5) := by
  have hnn : worldNonneg worldS5 := by
    refine ⟨⟨le_refl 0, le_refl 0, le_refl 0, le_refl 0, le_refl 0, le_refl 0, ?_⟩,
            trivial, ?_⟩
    · intro u hu
      simp [worldS5, emptyQosUsage] at hu
    · intro a ha
      simp only [worldS5] at ha
      rcases List.mem_singleton.mp ha with rfl
      exact ⟨le_refl 0, le_refl 0, le_refl 0, le_refl 0, le_refl 0, le_refl 0⟩
  exact ⟨hnn, by decide, by decide, by decide,
    C1_balanced_lifecycle jobS5
      [Ev.addSubmit, Ev.jobBegin, Ev.jobFini, Ev.remSubmit] worldS5 hnn
      (by decide) (by decide) (by decide)⟩

end AcctPolicy
